import Mathlib

/-!
Shallow embedding of the `orderbook` repository (Rust) for verification.

The data model and operations below are translated from `src/order.rs`,
`src/orderbook.rs`, `src/trade.rs` and `src/error.rs`:

* `Price = i32` is modelled as `Int` (prices are only compared, never
  combined arithmetically, so no wraparound can occur);
* `Quantity = u32` is modelled as `Nat` (the only subtraction,
  `Order.fill`, is guarded by the `quantity > remaining` check exactly as
  in the source, so no wraparound can occur);
* `BTreeMap<Price, _>` is modelled as a list of `(Price, _)` pairs in
  strictly ascending key order (the well-formedness predicate
  `sideSortedB`); `iter().next()` is `head?`, `iter().rev().next()` is
  `getLast?`, `pop_first` removes the head, `pop_last` removes the last
  entry;
* `LinkedHashMap<OrderId, OrderRef>` (a price level) is modelled as a
  `List Order` in insertion order: `front()` is `head?`, `back()` is
  `getLast?`, inserting a fresh key appends at the tail;
* `HashMap<OrderId, OrderEntry>` is modelled as an association list;
* the `Rc<RefCell<_>>` order handles are modelled by value: the book is
  the only logical owner, and trade records copy the identifying fields;
* fallible operations return the mutated book state together with an
  `Except`-style result, mirroring how errors propagate through `&mut
  self` methods (each error path is produced at the state the Rust code
  holds when the error is returned);
* the two nested loops of `OrderBook::match_orders` are written with an
  explicit fuel argument; the fuel supplied by `matchOrders` dominates
  the loop measure, as the lemmas below establish where needed.
-/

inductive OrderType where
  | FillAndKill
  | GoodTillCancel
deriving DecidableEq, Repr

inductive Side where
  | Buy
  | Sell
deriving DecidableEq, Repr

/-- `Price = i32`, unit is cents. -/
abbrev Price := Int

/-- `Quantity = u32`. -/
abbrev Quantity := Nat

/-- `OrderId = i64`. -/
abbrev OrderId := Int

/-- `Order` from `src/order.rs`. -/
structure Order where
  order_type : OrderType
  order_id : OrderId
  side : Side
  price : Price
  initial_quantity : Quantity
  remaining_quantity : Quantity
deriving DecidableEq, Repr

/-- `Order::new`: `remaining = initial = quantity`. -/
def Order.new (order_type : OrderType) (order_id : OrderId) (side : Side)
    (price : Price) (quantity : Quantity) : Order :=
  { order_type := order_type, order_id := order_id, side := side,
    price := price, initial_quantity := quantity, remaining_quantity := quantity }

def Order.is_filled (o : Order) : Bool :=
  o.remaining_quantity == 0

/-- `OrderError` from `src/error.rs`.  The source file shows only
`RequestedFillTooLarge`, but `src/order.rs` (`OrderModify::to_order`) and
its tests construct and match `OrderError::ModificationError`, so that
variant belongs to the enum; its `String` payload is dropped. -/
inductive OrderError where
  | RequestedFillTooLarge (surplus : Quantity)
  | ModificationError
deriving DecidableEq, Repr

/-- `OrderBookError` from `src/error.rs`, with the `ModificationError`
case of the public `modify_order` surface added per the spec error table
(§6, §7); `String` payloads are dropped and the overfill reason keeps the
surplus quantity. -/
inductive BookError where
  | OrderNotFound (id : OrderId)
  | OrderAlreadyExists (id : OrderId)
  | BookSideEmpty (side : Side)
  | InternalOrderProcessingError (surplus : Quantity)
  | ModificationError
deriving DecidableEq, Repr

instance {e a : Type} [DecidableEq e] [DecidableEq a] : DecidableEq (Except e a) := fun x y =>
  match x, y with
  | Except.error u, Except.error v => decidable_of_iff (u = v) (by simp)
  | Except.error _, Except.ok _ => isFalse (by simp)
  | Except.ok _, Except.error _ => isFalse (by simp)
  | Except.ok u, Except.ok v => decidable_of_iff (u = v) (by simp)

/-- `From<OrderError> for OrderBookError`: `RequestedFillTooLarge`
becomes `InternalOrderProcessingError` (src/error.rs).  Modelled from the
spec: the mapping of `ModificationError` (the variant missing from the
given `error.rs`) follows §6/§7, which list it as its own public error
kind of `modify_order`, distinct from `InternalOrderProcessingError`. -/
def BookError.ofOrderError : OrderError → BookError
  | OrderError.RequestedFillTooLarge s => BookError.InternalOrderProcessingError s
  | OrderError.ModificationError => BookError.ModificationError

/-- `Order::fill` from `src/order.rs`. -/
def Order.fill (o : Order) (quantity : Quantity) : Except OrderError Order :=
  if quantity > o.remaining_quantity then
    Except.error (OrderError.RequestedFillTooLarge (quantity - o.remaining_quantity))
  else
    Except.ok { o with remaining_quantity := o.remaining_quantity - quantity }

/-- `TradeInfo` from `src/trade.rs`. -/
structure TradeInfo where
  order_id : OrderId
  price : Price
  quantity : Quantity
deriving DecidableEq, Repr

/-- `Trade` from `src/trade.rs`. -/
structure Trade where
  bid_trade : TradeInfo
  ask_trade : TradeInfo
deriving DecidableEq, Repr

/-- `OrderModify` from `src/order.rs`. -/
structure OrderModify where
  order_id : OrderId
  side : Option Side
  price : Option Price
  quantity : Option Quantity
deriving DecidableEq, Repr

/-- `OrderModify::to_order` from `src/order.rs`: requires matching ids;
present fields override, absent fields inherit (quantity inherits the
old order's initial quantity); the type is always inherited; the result
is built with `Order::new`, so `remaining = initial = new quantity`. -/
def OrderModify.to_order (m : OrderModify) (order_to_modify : Order) :
    Except OrderError Order :=
  if order_to_modify.order_id ≠ m.order_id then
    Except.error OrderError.ModificationError
  else
    let new_side := match m.side with
      | some s => s
      | none => order_to_modify.side
    let new_price := match m.price with
      | some p => p
      | none => order_to_modify.price
    let new_quantity := match m.quantity with
      | some q => q
      | none => order_to_modify.initial_quantity
    Except.ok (Order.new order_to_modify.order_type m.order_id new_side
      new_price new_quantity)

/-- `OrderEntry` from `src/orderbook.rs`: where an order lives. -/
structure OrderEntry where
  book_side : Side
  price : Price
  order_id : OrderId
deriving DecidableEq, Repr

/-- One price level: the orders at one price in insertion order
(head = oldest / `front()`, last = newest / `back()`). -/
abbrev Level := List Order

/-- One side of the book: price levels in strictly ascending price order
(the `BTreeMap<Price, OrderRefs>` model). -/
abbrev SideMap := List (Price × Level)

/-- The id index `track_orders : HashMap<OrderId, OrderEntry>`. -/
abbrev Track := List (OrderId × OrderEntry)

/-- `OrderBook` from `src/orderbook.rs` (the asset tag is dropped: it is
never consulted by any operation). -/
structure OrderBook where
  bid_side : SideMap
  ask_side : SideMap
  track_orders : Track
deriving DecidableEq, Repr

def OrderBook.empty : OrderBook :=
  { bid_side := [], ask_side := [], track_orders := [] }

/-- `BTreeMap::get` on a side. -/
def sideGet (s : SideMap) (p : Price) : Option Level :=
  match s.find? (fun pl => pl.1 == p) with
  | some pl => some pl.2
  | none => none

/-- Replace the level stored at an existing key, or insert a new key at
its sorted position (`BTreeMap::insert`). -/
def sideInsert (p : Price) (lvl : Level) : SideMap → SideMap
  | [] => [(p, lvl)]
  | (q, w) :: rest =>
    if p < q then (p, lvl) :: (q, w) :: rest
    else if p = q then (p, lvl) :: rest
    else (q, w) :: sideInsert p lvl rest

/-- `BTreeMap::remove` (by key). -/
def sideRemove (p : Price) (s : SideMap) : SideMap :=
  s.filter (fun pl => pl.1 ≠ p)

/-- `BTreeMap::pop_first`. -/
def sidePopFirst (s : SideMap) : Option ((Price × Level) × SideMap) :=
  match s with
  | [] => none
  | pl :: rest => some (pl, rest)

/-- `BTreeMap::pop_last`. -/
def sidePopLast (s : SideMap) : Option ((Price × Level) × SideMap) :=
  match s.getLast? with
  | none => none
  | some pl => some (pl, s.dropLast)

/-- `LinkedHashMap::insert` on a level: a fresh id is appended at the
tail; an existing id has its value replaced in place. -/
def levelInsert (lvl : Level) (o : Order) : Level :=
  if lvl.any (fun x => x.order_id == o.order_id) then
    lvl.map (fun x => if x.order_id == o.order_id then o else x)
  else
    lvl ++ [o]

/-- `LinkedHashMap::remove` on a level (by order id). -/
def levelRemove (lvl : Level) (id : OrderId) : Level :=
  lvl.filter (fun x => x.order_id ≠ id)

/-- `LinkedHashMap::get` on a level (by order id). -/
def levelGet (lvl : Level) (id : OrderId) : Option Order :=
  lvl.find? (fun x => x.order_id == id)

/-- `HashMap::get` on the id index. -/
def trackGet (t : Track) (id : OrderId) : Option OrderEntry :=
  match t.find? (fun ie => ie.1 == id) with
  | some ie => some ie.2
  | none => none

/-- `HashMap::contains_key` on the id index. -/
def trackContains (t : Track) (id : OrderId) : Bool :=
  (trackGet t id).isSome

/-- `HashMap::insert` on the id index: replace in place, or add. -/
def trackInsert (t : Track) (id : OrderId) (e : OrderEntry) : Track :=
  if trackContains t id then
    t.map (fun ie => if ie.1 == id then (id, e) else ie)
  else
    (id, e) :: t

/-- `HashMap::remove` on the id index. -/
def trackRemove (t : Track) (id : OrderId) : Track :=
  t.filter (fun ie => ie.1 ≠ id)

/-- `OrderBook::can_match` from `src/orderbook.rs`.  Note the source
compares a Buy against the first (lowest) ask key — the best ask — but a
Sell against the first (lowest) bid key, exactly as
`self.bid_side.iter().next()` does. -/
def can_match (b : OrderBook) (side : Side) (price : Price) : Bool :=
  match side with
  | Side.Buy =>
    match b.ask_side.head? with
    | none => false
    | some pl => price ≥ pl.1
  | Side.Sell =>
    match b.bid_side.head? with
    | none => false
    | some pl => price ≤ pl.1

def OrderBook.getSide (b : OrderBook) : Side → SideMap
  | Side.Buy => b.bid_side
  | Side.Sell => b.ask_side

def OrderBook.setSide (b : OrderBook) : Side → SideMap → OrderBook
  | Side.Buy, s => { b with bid_side := s }
  | Side.Sell, s => { b with ask_side := s }

/-- Total number of resting orders on a side. -/
def sideOrderCount (s : SideMap) : Nat :=
  (s.map (fun pl => pl.2.length)).sum

/-- The inner `while` of `OrderBook::match_orders` (lines 259-302): while
both best levels are non-empty, fill the front bid and the front ask by
the minimum of their remaining quantities, record the trade (each side's
price is the participant's own price), and pop whichever participants are
now fully filled.  A fill error propagates out by `?`, so the iteration
stops and reports it (the fourth component). -/
def fillLoop : Nat → List Order → List Order → List Trade →
    List Order × List Order × List Trade × Option OrderError
  | 0, bids, asks, trades => (bids, asks, trades, none)
  | Nat.succ fuel, bids, asks, trades =>
    match bids, asks with
    | [], _ => (bids, asks, trades, none)
    | _, [] => (bids, asks, trades, none)
    | bid :: restBids, ask :: restAsks =>
      let fill_quantity := min bid.remaining_quantity ask.remaining_quantity
      match bid.fill fill_quantity with
      | Except.error e => (bid :: restBids, ask :: restAsks, trades, some e)
      | Except.ok bid2 =>
        match ask.fill fill_quantity with
        | Except.error e => (bid2 :: restBids, ask :: restAsks, trades, some e)
        | Except.ok ask2 =>
          let trade : Trade := Trade.mk
            (TradeInfo.mk bid2.order_id bid2.price fill_quantity)
            (TradeInfo.mk ask2.order_id ask2.price fill_quantity)
          let bids2 := if bid2.is_filled then restBids else bid2 :: restBids
          let asks2 := if ask2.is_filled then restAsks else ask2 :: restAsks
          fillLoop fuel bids2 asks2 (trades ++ [trade])

/-- The outer `loop` of `OrderBook::match_orders` (lines 236-315).  Note
that when both sides are non-empty the two best levels are popped out of
the maps before the `best_bid < best_ask` comparison, and the `break` on
that comparison leaves them popped: the levels are not reinserted. -/
def matchLoop : Nat → SideMap → SideMap → List Trade →
    SideMap × SideMap × List Trade × Option OrderError
  | 0, bid, ask, trades => (bid, ask, trades, none)
  | Nat.succ fuel, bid, ask, trades =>
    if ask.isEmpty || bid.isEmpty then (bid, ask, trades, none)
    else
      match sidePopLast bid with
      | none => (bid, ask, trades, none)
      | some ((best_bid_price, bids), bid2) =>
        match sidePopFirst ask with
        | none => (bid2, ask, trades, none)
        | some ((best_ask_price, asks), ask2) =>
          if best_bid_price < best_ask_price then (bid2, ask2, trades, none)
          else
            let r := fillLoop (bids.length + asks.length) bids asks trades
            match r.2.2.2 with
            | some e => (bid2, ask2, r.2.2.1, some e)
            | none =>
              let bid3 := if r.1.isEmpty then sideRemove best_bid_price bid2
                else sideInsert best_bid_price r.1 bid2
              let ask3 := if r.2.1.isEmpty then sideRemove best_ask_price ask2
                else sideInsert best_ask_price r.2.1 ask2
              matchLoop fuel bid3 ask3 r.2.2.1

/-- `OrderBook::cancel_order` (lines 124-148): look the id up in
`track_orders` (else `OrderNotFound`, book unchanged), find the recorded
level on the recorded side (else `OrderNotFound`, book unchanged), remove
the entry's order id from the level, drop the level if it became empty,
and drop the id from `track_orders`. -/
def cancel_order (b : OrderBook) (order_id : OrderId) :
    OrderBook × Except BookError OrderId :=
  match trackGet b.track_orders order_id with
  | none => (b, Except.error (BookError.OrderNotFound order_id))
  | some entry =>
    match sideGet (b.getSide entry.book_side) entry.price with
    | none => (b, Except.error (BookError.OrderNotFound order_id))
    | some lvl =>
      let lvl2 := levelRemove lvl entry.order_id
      let side2 := if lvl2.isEmpty then sideRemove entry.price (b.getSide entry.book_side)
        else sideInsert entry.price lvl2 (b.getSide entry.book_side)
      let b2 := b.setSide entry.book_side side2
      ({ b2 with track_orders := trackRemove b2.track_orders order_id },
        Except.ok order_id)

/-- `OrderBook::prune_fak_from_order_book` (lines 332-365).  For
`Side::Buy` it reads the first — lowest-price — bid level
(`bid_side.iter().next()`); for `Side::Sell` it reads the last —
highest-price — ask level (`ask_side.iter().rev().next()`); within the
level it reads `back()`, the most recently inserted order; if that order
is FillAndKill it is cancelled via `cancel_order`.  The caller discards
the returned `Result` and every error path leaves the book unchanged, so
the function is modelled as returning the book. -/
def prune_fak_from_order_book (b : OrderBook) (side : Side) : OrderBook :=
  let ordersOpt := match side with
    | Side.Buy => b.bid_side.head?
    | Side.Sell => b.ask_side.getLast?
  match ordersOpt with
  | none => b
  | some pl =>
    match pl.2.getLast? with
    | none => b
    | some o =>
      match o.order_type with
      | OrderType.FillAndKill => (cancel_order b o.order_id).1
      | OrderType.GoodTillCancel => b

/-- `OrderBook::match_orders` (lines 231-330): run the matching loop,
then — unless a fill error aborted it — sweep each non-empty side with
`prune_fak_from_order_book`, and return the trades (`None` when none
were generated).  The supplied fuel strictly dominates the loop measure
(total orders plus total levels). -/
def match_orders (b : OrderBook) : OrderBook × Except BookError (Option (List Trade)) :=
  let fuel := sideOrderCount b.bid_side + sideOrderCount b.ask_side +
    b.bid_side.length + b.ask_side.length + 1
  let r := matchLoop fuel b.bid_side b.ask_side []
  match r.2.2.2 with
  | some e =>
    ({ b with bid_side := r.1, ask_side := r.2.1 },
      Except.error (BookError.ofOrderError e))
  | none =>
    let b1 := { b with bid_side := r.1, ask_side := r.2.1 }
    let b2 := if b1.bid_side.isEmpty then b1 else prune_fak_from_order_book b1 Side.Buy
    let b3 := if b2.ask_side.isEmpty then b2 else prune_fak_from_order_book b2 Side.Sell
    (b3, Except.ok (if r.2.2.1.isEmpty then none else some r.2.2.1))

/-- `OrderBook::add_order` (lines 72-118): reject a duplicate id; record
the order in `track_orders`; if it is FillAndKill and `can_match` fails,
return `Ok(None)` right there (the `track_orders` entry stays); otherwise
append the order to the level keyed by its price on its side (creating
the level if absent) and run `match_orders`. -/
def add_order (b : OrderBook) (order : Order) :
    OrderBook × Except BookError (Option (List Trade)) :=
  if trackContains b.track_orders order.order_id then
    (b, Except.error (BookError.OrderAlreadyExists order.order_id))
  else
    let entry := OrderEntry.mk order.side order.price order.order_id
    let b1 := { b with track_orders := trackInsert b.track_orders order.order_id entry }
    if order.order_type == OrderType.FillAndKill &&
        !(can_match b1 order.side order.price) then
      (b1, Except.ok none)
    else
      let side0 := b1.getSide order.side
      let side1 := match sideGet side0 order.price with
        | some lvl => sideInsert order.price (levelInsert lvl order) side0
        | none => sideInsert order.price [order] side0
      match_orders (b1.setSide order.side side1)

/-- `OrderBook::get_order_ref` (lines 371-389). -/
def get_order_ref (b : OrderBook) (order_id : OrderId) : Except BookError Order :=
  match trackGet b.track_orders order_id with
  | none => Except.error (BookError.OrderNotFound order_id)
  | some entry =>
    match sideGet (b.getSide entry.book_side) entry.price with
    | none => Except.error (BookError.OrderNotFound order_id)
    | some lvl =>
      match levelGet lvl order_id with
      | none => Except.error (BookError.OrderNotFound order_id)
      | some o => Except.ok o

/-- `OrderBook::modify_order` (lines 154-171): look the order up through
`get_order_ref`, clone it, cancel it, then `add_order` the order composed
by `OrderModify::to_order` (whose error is converted to a book error
after the cancel has already happened). -/
def modify_order (b : OrderBook) (m : OrderModify) :
    OrderBook × Except BookError (Option (List Trade)) :=
  match get_order_ref b m.order_id with
  | Except.error e => (b, Except.error e)
  | Except.ok old_order =>
    match cancel_order b m.order_id with
    | (b1, Except.error e) => (b1, Except.error e)
    | (b1, Except.ok _) =>
      match m.to_order old_order with
      | Except.error e => (b1, Except.error (BookError.ofOrderError e))
      | Except.ok new_order => add_order b1 new_order

/-- The composition §4.3.3 of the spec describes `modify_order` to be
equivalent to: look up the existing order by the descriptor's id
(`OrderNotFound` if absent), compose the replacement from the old
order's type and identity with the descriptor's present fields
overriding (a caller error such as a mismatched id leaves the book
unchanged, §7), cancel the old order, then `add_order` the
replacement. -/
def modify_order_spec (b : OrderBook) (m : OrderModify) :
    OrderBook × Except BookError (Option (List Trade)) :=
  match get_order_ref b m.order_id with
  | Except.error e => (b, Except.error e)
  | Except.ok old_order =>
    match m.to_order old_order with
    | Except.error e => (b, Except.error (BookError.ofOrderError e))
    | Except.ok new_order =>
      match cancel_order b m.order_id with
      | (b1, Except.error e) => (b1, Except.error e)
      | (b1, Except.ok _) => add_order b1 new_order

/-- The price keys of a side. -/
def sideKeys (s : SideMap) : List Price :=
  s.map Prod.fst

/-- Maximum of a list of prices. -/
def keysMax : List Price → Option Price
  | [] => none
  | p :: rest =>
    match keysMax rest with
    | none => some p
    | some q => some (max p q)

/-- Minimum of a list of prices. -/
def keysMin : List Price → Option Price
  | [] => none
  | p :: rest =>
    match keysMin rest with
    | none => some p
    | some q => some (min p q)

/-- The §3 cross invariant of the spec: whenever both sides are
non-empty, the maximum bid-side price key is strictly below the minimum
ask-side price key. -/
def crossOK (b : OrderBook) : Bool :=
  match keysMax (sideKeys b.bid_side), keysMin (sideKeys b.ask_side) with
  | some bb, some ba => decide (bb < ba)
  | _, _ => true

/-- Pairwise form of the cross invariant. -/
def crossP (bid ask : SideMap) : Prop :=
  ∀ p ∈ sideKeys bid, ∀ q ∈ sideKeys ask, p < q

/-- The `BTreeMap` representation invariant: strictly ascending keys. -/
def sideSorted (s : SideMap) : Prop :=
  List.Pairwise (fun p q => p < q) (sideKeys s)

/-- §3 invariant: no side contains an empty price level. -/
def noEmptyLevels (s : SideMap) : Prop :=
  ∀ pl ∈ s, pl.2 ≠ []

def sideWF (s : SideMap) : Prop :=
  sideSorted s ∧ noEmptyLevels s

def bookWF (b : OrderBook) : Prop :=
  sideWF b.bid_side ∧ sideWF b.ask_side

/-- The side opposite to the one an order joins. -/
def OrderBook.oppSide (b : OrderBook) : Side → SideMap
  | Side.Buy => b.ask_side
  | Side.Sell => b.bid_side

/-- A GoodTillCancel order with `remaining = initial = q`. -/
def gtcOrder (id : OrderId) (s : Side) (p : Price) (q : Quantity) : Order :=
  Order.new OrderType.GoodTillCancel id s p q

/-- A FillAndKill order with `remaining = initial = q`. -/
def fakOrder (id : OrderId) (s : Side) (p : Price) (q : Quantity) : Order :=
  Order.new OrderType.FillAndKill id s p q

/-- An id-index entry as `add_order` records it. -/
def bookEntry (id : OrderId) (s : Side) (p : Price) : OrderId × OrderEntry :=
  (id, OrderEntry.mk s p id)

/-- C1/C10 input: a FillAndKill sell submitted to the empty book. -/
def c1order : Order := fakOrder 1 Side.Sell 100 10

/-- C2 input: two bid levels; the best (highest) level's oldest order is
FillAndKill, the worst (lowest) level's newest order is GoodTillCancel. -/
def c2fakC : Order := fakOrder 13 Side.Buy 100 4

def c2book : OrderBook :=
  { bid_side := [(90, [fakOrder 11 Side.Buy 90 4, gtcOrder 12 Side.Buy 90 4]),
      (100, [c2fakC])],
    ask_side := [],
    track_orders := [bookEntry 11 Side.Buy 90, bookEntry 12 Side.Buy 90,
      bookEntry 13 Side.Buy 100] }

/-- C3 input: a resting bid below a resting ask. -/
def c3book : OrderBook :=
  { bid_side := [(90, [gtcOrder 1 Side.Buy 90 5])],
    ask_side := [(100, [gtcOrder 2 Side.Sell 100 3])],
    track_orders := [bookEntry 1 Side.Buy 90, bookEntry 2 Side.Sell 100] }

/-- C3 input: a FillAndKill buy that crosses the ask but is larger. -/
def c3fak : Order := fakOrder 3 Side.Buy 100 10

/-- C4 input: spec §8 scenario 1, a non-crossing GoodTillCancel pair. -/
def c4book : OrderBook :=
  { bid_side := [(100, [gtcOrder 1 Side.Buy 100 10])],
    ask_side := [(120, [gtcOrder 2 Side.Sell 120 10])],
    track_orders := [bookEntry 1 Side.Buy 100, bookEntry 2 Side.Sell 120] }

/-- C6 input: a resting ask the incoming order fully crosses. -/
def c6book : OrderBook :=
  { bid_side := [],
    ask_side := [(100, [gtcOrder 2 Side.Sell 100 5])],
    track_orders := [bookEntry 2 Side.Sell 100] }

def c6order : Order := gtcOrder 1 Side.Buy 100 5

/-- C10 input: a book whose bid side already has a level at price 100,
with the best ask far above. -/
def c10book : OrderBook :=
  { bid_side := [(100, [gtcOrder 9 Side.Buy 100 5])],
    ask_side := [(150, [gtcOrder 8 Side.Sell 150 5])],
    track_orders := [bookEntry 9 Side.Buy 100, bookEntry 8 Side.Sell 150] }

/-- C10 input: a FillAndKill buy at 100 that cannot match (best ask 150). -/
def c10fak : Order := fakOrder 1 Side.Buy 100 10

/-- C7 witness input: a resting FillAndKill order (such states are
reachable, see the C3 theorem). -/
def c7book : OrderBook :=
  { bid_side := [(100, [fakOrder 1 Side.Buy 100 4])],
    ask_side := [],
    track_orders := [bookEntry 1 Side.Buy 100] }

def c7mod : OrderModify := OrderModify.mk 1 none none (some 7)

/-- C5/C6 witness input: a small separated, well-formed book. -/
def c5book : OrderBook :=
  { bid_side := [(95, [gtcOrder 4 Side.Buy 95 2])],
    ask_side := [(105, [gtcOrder 5 Side.Sell 105 2])],
    track_orders := [bookEntry 4 Side.Buy 95, bookEntry 5 Side.Sell 105] }

/-- C6 witness input: a one-sided all-GoodTillCancel book. -/
def c6wbook : OrderBook :=
  { bid_side := [(95, [gtcOrder 4 Side.Buy 95 2])],
    ask_side := [],
    track_orders := [bookEntry 4 Side.Buy 95] }

/-- The C3 input's FillAndKill order as it rests after the call: price
level 100, 3 of 10 filled. -/
def c3resting : Order :=
  { order_type := OrderType.FillAndKill, order_id := 3, side := Side.Buy,
    price := 100, initial_quantity := 10, remaining_quantity := 7 }

/-- C1: at the failing input — a FillAndKill sell on the empty book,
where `can_match` is false — `add_order` returns `Ok(None)`, emits no
trades and inserts on neither side, but the order's id is not removed
from the index: `track_orders` still contains id 1 when the call
returns. -/
theorem c1_fak_reject_eval :
    can_match OrderBook.empty Side.Sell 100 = false ∧
    add_order OrderBook.empty c1order =
      ({ bid_side := [], ask_side := [],
         track_orders := [bookEntry 1 Side.Sell 100] }, Except.ok none) ∧
    trackContains (add_order OrderBook.empty c1order).1.track_orders 1 = true := by
  decide

/-- C2 counterexample: in `c2book` the best (highest) bid level is 100
and its oldest order `c2fakC` is FillAndKill, so the claim requires the
sweep to cancel exactly that order; but `prune_fak_from_order_book`
leaves the book completely unchanged (it inspected the newest order of
the worst level instead). -/
theorem c2_counterexample :
    c2book.bid_side.getLast? = some (100, [c2fakC]) ∧
    [c2fakC].head? = some c2fakC ∧
    c2fakC.order_type = OrderType.FillAndKill ∧
    prune_fak_from_order_book c2book Side.Buy = c2book := by
  decide

/-- C3: at the failing input, a FillAndKill buy that crosses the only ask
but is larger, `add_order` returns with the partially filled FillAndKill
order resting on the bid side and registered in the index: the claimed
invariant (no FillAndKill id in the index after `add_order`) is violated
by the code. -/
theorem c3_fak_rests_eval :
    (add_order c3book c3fak).1.bid_side =
      [(90, [gtcOrder 1 Side.Buy 90 5]), (100, [c3resting])] ∧
    c3resting.order_type = OrderType.FillAndKill ∧
    trackContains (add_order c3book c3fak).1.track_orders 3 = true := by
  decide

/-- C4: at the failing input (spec §8 scenario 1: bid 100, ask 120, not
crossing) the matching loop is supposed to just stop, but the code pops
the two best levels before the price comparison and the early `break`
never reinserts them: both resting levels are deleted from the book. -/
theorem c4_noncrossing_drop_eval :
    match_orders c4book =
      ({ bid_side := [], ask_side := [], track_orders := c4book.track_orders },
        Except.ok none) := by
  decide

/-- C6 counterexample: with a resting ask of equal size, `add_order` of a
fresh crossing buy trades fully; both cancels then return `OrderNotFound`
(the claim expects the second to), but the final state is not the state
before the add: the resting ask is gone and both ids linger in the
index. -/
theorem c6_counterexample :
    (cancel_order (cancel_order (add_order c6book c6order).1 1).1 1).2 =
      Except.error (BookError.OrderNotFound 1) ∧
    (cancel_order (cancel_order (add_order c6book c6order).1 1).1 1).1 ≠ c6book := by
  decide

/-- C10 counterexample: the rejected FillAndKill's id is indeed left in
the index, but when the order's side already has a resting level at its
price, `cancel_order` of the stale id does not fail with `OrderNotFound`:
it succeeds (returning the id) and removes the stale entry. -/
theorem c10_counterexample :
    (add_order c10book c10fak).2 = Except.ok none ∧
    (cancel_order (add_order c10book c10fak).1 1).2 = Except.ok 1 := by
  decide

/-- C8: `OrderModify.to_order` fails with `ModificationError` exactly
when the target order's id differs from the descriptor's; on success the
side, price and quantity take the descriptor's present values and
otherwise inherit the old order's (quantity inheriting the old initial
quantity), the type is always inherited, and the result has
`remaining = initial = the new quantity`. -/
theorem c8_to_order_semantics (m : OrderModify) (o : Order) :
    (m.to_order o = Except.error OrderError.ModificationError ↔ o.order_id ≠ m.order_id) ∧
    (∀ r, m.to_order o = Except.ok r →
      r.order_type = o.order_type ∧
      r.order_id = m.order_id ∧
      r.side = m.side.getD o.side ∧
      r.price = m.price.getD o.price ∧
      r.initial_quantity = m.quantity.getD o.initial_quantity ∧
      r.remaining_quantity = r.initial_quantity) ∧
    (o.order_id = m.order_id → ∃ r, m.to_order o = Except.ok r) := by
  unfold OrderModify.to_order
  by_cases h : o.order_id = m.order_id <;>
    cases hs : m.side <;> cases hp : m.price <;> cases hq : m.quantity <;>
      simp [h, hs, hp, hq, Order.new]

/-- Witness for C8 at a concrete input. -/
theorem c8_witness :
    (gtcOrder 1 Side.Sell 30 100).order_id = (OrderModify.mk 1 none (some 44) none).order_id ∧
    (∃ r, (OrderModify.mk 1 none (some 44) none).to_order (gtcOrder 1 Side.Sell 30 100) =
      Except.ok r) :=
  ⟨rfl, (c8_to_order_semantics (OrderModify.mk 1 none (some 44) none)
    (gtcOrder 1 Side.Sell 30 100)).2.2 rfl⟩

lemma setSide_track (b : OrderBook) (s : Side) (m : SideMap) :
    (b.setSide s m).track_orders = b.track_orders := by
  cases s <;> rfl

lemma getSide_track_irrel (b : OrderBook) (t : Track) (s : Side) :
    ({ b with track_orders := t } : OrderBook).getSide s = b.getSide s := by
  cases s <;> rfl

lemma can_match_track_irrel (b : OrderBook) (t : Track) (s : Side) (p : Price) :
    can_match { b with track_orders := t } s p = can_match b s p := by
  cases s <;> rfl

lemma trackRemove_get (t : Track) (id : OrderId) :
    trackGet (trackRemove t id) id = none := by
  have hf : (trackRemove t id).find? (fun ie : OrderId × OrderEntry => ie.1 == id) = none := by
    rw [List.find?_eq_none]
    intro ie hie
    have h2 := List.of_mem_filter (p := fun ie : OrderId × OrderEntry => decide (ie.1 ≠ id)) hie
    simp at h2
    simp [h2]
  unfold trackGet
  rw [hf]

lemma trackRemove_contains (t : Track) (id : OrderId) :
    trackContains (trackRemove t id) id = false := by
  unfold trackContains
  rw [trackRemove_get]
  rfl

lemma trackInsert_fresh (t : Track) (id : OrderId) (e : OrderEntry)
    (h : trackContains t id = false) :
    trackInsert t id e = (id, e) :: t := by
  unfold trackInsert
  rw [h]
  simp

lemma trackGet_cons_self (t : Track) (id : OrderId) (e : OrderEntry) :
    trackGet ((id, e) :: t) id = some e := by
  unfold trackGet
  simp [List.find?]

lemma trackContains_cons_self (t : Track) (id : OrderId) (e : OrderEntry) :
    trackContains ((id, e) :: t) id = true := by
  unfold trackContains
  rw [trackGet_cons_self]
  rfl

lemma trackGet_none_keys (t : Track) (id : OrderId) (h : trackContains t id = false) :
    ∀ ie : OrderId × OrderEntry, ie ∈ t → ie.1 ≠ id := by
  intro ie hie
  unfold trackContains trackGet at h
  cases hf : t.find? (fun x => x.1 == id) with
  | some x => rw [hf] at h; simp at h
  | none =>
    rw [List.find?_eq_none] at hf
    have h2 := hf ie hie
    simpa using h2

lemma trackRemove_cons_fresh (t : Track) (id : OrderId) (e : OrderEntry)
    (h : trackContains t id = false) :
    trackRemove ((id, e) :: t) id = t := by
  unfold trackRemove
  rw [List.filter_cons]
  have h1 : (decide ((id, e).1 ≠ id)) = false := by simp
  rw [h1]
  simp only [Bool.false_eq_true, if_false]
  apply List.filter_eq_self.2
  intro ie hie
  simpa using trackGet_none_keys t id h ie hie

lemma cancel_order_none (b : OrderBook) (id : OrderId)
    (hg : trackGet b.track_orders id = none) :
    cancel_order b id = (b, Except.error (BookError.OrderNotFound id)) := by
  unfold cancel_order
  rw [hg]

lemma cancel_order_no_level (b : OrderBook) (id : OrderId) (entry : OrderEntry)
    (hg : trackGet b.track_orders id = some entry)
    (hs : sideGet (b.getSide entry.book_side) entry.price = none) :
    cancel_order b id = (b, Except.error (BookError.OrderNotFound id)) := by
  unfold cancel_order
  simp only [hg, hs]

lemma cancel_order_found (b : OrderBook) (id : OrderId) (entry : OrderEntry) (lvl : Level)
    (hg : trackGet b.track_orders id = some entry)
    (hs : sideGet (b.getSide entry.book_side) entry.price = some lvl) :
    cancel_order b id =
      ({ b.setSide entry.book_side
          (if (levelRemove lvl entry.order_id).isEmpty then
            sideRemove entry.price (b.getSide entry.book_side)
           else
            sideInsert entry.price (levelRemove lvl entry.order_id)
              (b.getSide entry.book_side)) with
         track_orders := trackRemove b.track_orders id },
       Except.ok id) := by
  unfold cancel_order
  simp only [hg, hs]
  rw [setSide_track]

lemma add_order_dup (b : OrderBook) (o : Order)
    (h : trackContains b.track_orders o.order_id = true) :
    add_order b o = (b, Except.error (BookError.OrderAlreadyExists o.order_id)) := by
  unfold add_order
  rw [h]
  simp

lemma add_order_fak_reject (b : OrderBook) (o : Order)
    (h1 : trackContains b.track_orders o.order_id = false)
    (h2 : o.order_type = OrderType.FillAndKill)
    (h3 : can_match b o.side o.price = false) :
    add_order b o =
      ({ b with track_orders := trackInsert b.track_orders o.order_id (OrderEntry.mk o.side o.price o.order_id) }, Except.ok none) := by
  unfold add_order
  rw [h1]
  have h4 : can_match { b with track_orders := trackInsert b.track_orders o.order_id (OrderEntry.mk o.side o.price o.order_id) } o.side o.price = false := by
    rw [can_match_track_irrel]
    exact h3
  simp [h2, h4]

lemma add_order_insert (b : OrderBook) (o : Order)
    (h1 : trackContains b.track_orders o.order_id = false)
    (h2 : (o.order_type == OrderType.FillAndKill &&
      !(can_match b o.side o.price)) = false) :
    add_order b o =
      match_orders
        (({ b with track_orders := trackInsert b.track_orders o.order_id (OrderEntry.mk o.side o.price o.order_id) }).setSide o.side
          (match sideGet (b.getSide o.side) o.price with
           | some lvl => sideInsert o.price (levelInsert lvl o) (b.getSide o.side)
           | none => sideInsert o.price [o] (b.getSide o.side))) := by
  unfold add_order
  rw [h1]
  have h4 : (o.order_type == OrderType.FillAndKill &&
      !(can_match { b with track_orders := trackInsert b.track_orders o.order_id (OrderEntry.mk o.side o.price o.order_id) } o.side o.price)) = false := by
    rw [can_match_track_irrel]
    exact h2
  simp only [Bool.false_eq_true, if_false, h4, getSide_track_irrel]

lemma levelGet_id (lvl : Level) (id : OrderId) (o : Order)
    (h : levelGet lvl id = some o) : o.order_id = id := by
  unfold levelGet at h
  have h2 := List.find?_some h
  simpa using h2

lemma get_order_ref_id (b : OrderBook) (id : OrderId) (o : Order)
    (h : get_order_ref b id = Except.ok o) : o.order_id = id := by
  unfold get_order_ref at h
  cases hg : trackGet b.track_orders id with
  | none => simp only [hg] at h; exact absurd h (by simp)
  | some entry =>
    simp only [hg] at h
    cases hs : sideGet (b.getSide entry.book_side) entry.price with
    | none => simp only [hs] at h; exact absurd h (by simp)
    | some lvl =>
      simp only [hs] at h
      cases hl : levelGet lvl id with
      | none => simp only [hl] at h; exact absurd h (by simp)
      | some o2 =>
        simp only [hl] at h
        simp at h
        rw [← h]
        exact levelGet_id lvl id o2 hl

lemma to_order_ok_of_id (m : OrderModify) (o : Order)
    (h : o.order_id = m.order_id) :
    ∃ r : Order, m.to_order o = Except.ok r ∧ r.order_id = m.order_id := by
  unfold OrderModify.to_order
  simp only [h, ne_eq, not_true_eq_false, if_false, ite_false]
  exact ⟨_, rfl, rfl⟩

lemma cancel_order_ok_not_tracked (b : OrderBook) (id : OrderId) (v : OrderId)
    (h : (cancel_order b id).2 = Except.ok v) :
    trackContains (cancel_order b id).1.track_orders id = false := by
  cases hg : trackGet b.track_orders id with
  | none =>
    rw [cancel_order_none b id hg] at h
    exact absurd h (by simp)
  | some entry =>
    cases hs : sideGet (b.getSide entry.book_side) entry.price with
    | none =>
      rw [cancel_order_no_level b id entry hg hs] at h
      exact absurd h (by simp)
    | some lvl =>
      rw [cancel_order_found b id entry lvl hg hs]
      exact trackRemove_contains b.track_orders id

lemma to_order_ok_id (m : OrderModify) (o r : Order)
    (h : m.to_order o = Except.ok r) : r.order_id = m.order_id := by
  unfold OrderModify.to_order at h
  by_cases hid : o.order_id = m.order_id
  · simp only [hid, ne_eq, not_true_eq_false, if_false, ite_false] at h
    simp at h
    rw [← h]
    rfl
  · simp [hid] at h

/-- C7: `modify_order` equals the spec's composition — look the order up
by the descriptor's id (`OrderNotFound` if absent), cancel it, then
`add_order` the replacement composed from the old order's type and id
with the descriptor's present fields overriding — and when the composed
replacement is FillAndKill and cannot immediately cross, `modify_order`
returns `Ok(None)` and the sides stay exactly as the cancel left them:
the original order is not restored. -/
theorem c7_modify_refinement :
    (∀ (b : OrderBook) (m : OrderModify), modify_order b m = modify_order_spec b m) ∧
    (∀ (b : OrderBook) (m : OrderModify) (old_order new_order : Order),
      get_order_ref b m.order_id = Except.ok old_order →
      m.to_order old_order = Except.ok new_order →
      (cancel_order b m.order_id).2 = Except.ok m.order_id →
      new_order.order_type = OrderType.FillAndKill →
      can_match (cancel_order b m.order_id).1 new_order.side new_order.price = false →
      (modify_order b m).2 = Except.ok none ∧
      (modify_order b m).1.bid_side = (cancel_order b m.order_id).1.bid_side ∧
      (modify_order b m).1.ask_side = (cancel_order b m.order_id).1.ask_side) := by
  constructor
  · intro b m
    unfold modify_order modify_order_spec
    cases hg : get_order_ref b m.order_id with
    | error e => rfl
    | ok old_order =>
      dsimp only
      have hid : old_order.order_id = m.order_id :=
        get_order_ref_id b m.order_id old_order hg
      obtain ⟨r, hr, _⟩ := to_order_ok_of_id m old_order hid
      rw [hr]
  · intro b m old_order new_order hg hto hcok hfak hcm
    have hpair : cancel_order b m.order_id =
        ((cancel_order b m.order_id).1, Except.ok m.order_id) := by
      rw [← hcok]
    have hnid : new_order.order_id = m.order_id := to_order_ok_id m old_order new_order hto
    have hnt : trackContains (cancel_order b m.order_id).1.track_orders new_order.order_id
        = false := by
      rw [hnid]
      exact cancel_order_ok_not_tracked b m.order_id m.order_id hcok
    have hcm2 : can_match (cancel_order b m.order_id).1 new_order.side new_order.price
        = false := hcm
    have hstep : modify_order b m =
        add_order (cancel_order b m.order_id).1 new_order := by
      unfold modify_order
      simp only [hg]
      rw [hpair]
      simp only [hto]
    rw [hstep, add_order_fak_reject (cancel_order b m.order_id).1 new_order hnt hfak hcm2]
    exact ⟨rfl, rfl, rfl⟩

/-- Witness for C7's conditional part at a concrete input: modifying a
resting FillAndKill order at price 100 against an empty opposite side. -/
theorem c7_witness :
    (modify_order c7book c7mod).2 = Except.ok none ∧
    (modify_order c7book c7mod).1.bid_side = (cancel_order c7book 1).1.bid_side ∧
    (modify_order c7book c7mod).1.ask_side = (cancel_order c7book 1).1.ask_side :=
  c7_modify_refinement.2 c7book c7mod (fakOrder 1 Side.Buy 100 4)
    (Order.new OrderType.FillAndKill 1 Side.Buy 100 7)
    (by decide) (by decide) (by decide) (by decide) (by decide)

lemma fill_min_left (bid ask : Order) :
    bid.fill (min bid.remaining_quantity ask.remaining_quantity) =
      Except.ok { bid with remaining_quantity :=
        bid.remaining_quantity - min bid.remaining_quantity ask.remaining_quantity } := by
  unfold Order.fill
  rw [if_neg]
  exact Nat.not_lt.2 (Nat.min_le_left _ _)

lemma fill_min_right (bid ask : Order) :
    ask.fill (min bid.remaining_quantity ask.remaining_quantity) =
      Except.ok { ask with remaining_quantity :=
        ask.remaining_quantity - min bid.remaining_quantity ask.remaining_quantity } := by
  unfold Order.fill
  rw [if_neg]
  exact Nat.not_lt.2 (Nat.min_le_right _ _)

lemma fillLoop_err_none : ∀ (fuel : Nat) (bids asks : List Order) (tr : List Trade),
    (fillLoop fuel bids asks tr).2.2.2 = none := by
  intro fuel
  induction fuel with
  | zero => intro bids asks tr; rfl
  | succ fuel ih =>
    intro bids asks tr
    cases bids with
    | nil => cases asks <;> rfl
    | cons bid restB =>
      cases asks with
      | nil => rfl
      | cons ask restA =>
        simp only [fillLoop, fill_min_left, fill_min_right]
        exact ih _ _ _

lemma matchLoop_err_none : ∀ (fuel : Nat) (bid ask : SideMap) (tr : List Trade),
    (matchLoop fuel bid ask tr).2.2.2 = none := by
  intro fuel
  induction fuel with
  | zero => intro bid ask tr; rfl
  | succ fuel ih =>
    intro bid ask tr
    unfold matchLoop
    split
    · rfl
    · split
      · rfl
      · split
        · rfl
        · split
          · rfl
          · dsimp only
            rw [fillLoop_err_none]
            exact ih _ _ _

lemma match_orders_snd_ok (b : OrderBook) :
    ∃ t, (match_orders b).2 = Except.ok t := by
  unfold match_orders
  dsimp only
  rw [matchLoop_err_none]
  exact ⟨_, rfl⟩

lemma to_order_err (m : OrderModify) (o : Order) (e : OrderError)
    (h : m.to_order o = Except.error e) : e = OrderError.ModificationError := by
  unfold OrderModify.to_order at h
  by_cases hid : o.order_id = m.order_id
  · rw [if_neg (fun hc => hc hid)] at h
    exact absurd h (by simp)
  · rw [if_pos hid] at h
    injection h with h2
    exact h2.symm

lemma get_order_ref_err (b : OrderBook) (id : OrderId) (e : BookError)
    (h : get_order_ref b id = Except.error e) : e = BookError.OrderNotFound id := by
  unfold get_order_ref at h
  cases hg : trackGet b.track_orders id with
  | none => simp only [hg] at h; injection h with h2; exact h2.symm
  | some entry =>
    simp only [hg] at h
    cases hs : sideGet (b.getSide entry.book_side) entry.price with
    | none => simp only [hs] at h; injection h with h2; exact h2.symm
    | some lvl =>
      simp only [hs] at h
      cases hl : levelGet lvl id with
      | none => simp only [hl] at h; injection h with h2; exact h2.symm
      | some o2 => simp only [hl] at h; exact absurd h (by simp)

lemma cancel_order_err (b : OrderBook) (id : OrderId) (e : BookError)
    (h : (cancel_order b id).2 = Except.error e) : e = BookError.OrderNotFound id := by
  cases hg : trackGet b.track_orders id with
  | none =>
    rw [cancel_order_none b id hg] at h
    simp at h
    exact h.symm
  | some entry =>
    cases hs : sideGet (b.getSide entry.book_side) entry.price with
    | none =>
      rw [cancel_order_no_level b id entry hg hs] at h
      simp at h
      exact h.symm
    | some lvl =>
      rw [cancel_order_found b id entry lvl hg hs] at h
      exact absurd h (by simp)

lemma add_order_snd_not_internal (b : OrderBook) (o : Order) (s : Quantity) :
    (add_order b o).2 ≠ Except.error (BookError.InternalOrderProcessingError s) := by
  by_cases h1 : trackContains b.track_orders o.order_id
  · rw [add_order_dup b o (by simpa using h1)]
    simp
  · have h1f : trackContains b.track_orders o.order_id = false := by simpa using h1
    by_cases h2 : (o.order_type == OrderType.FillAndKill &&
        !(can_match b o.side o.price)) = true
    · have h3 : o.order_type = OrderType.FillAndKill ∧ can_match b o.side o.price = false := by
        simpa using h2
      rw [add_order_fak_reject b o h1f h3.1 h3.2]
      simp
    · have h2f : (o.order_type == OrderType.FillAndKill &&
          !(can_match b o.side o.price)) = false := by simpa using h2
      rw [add_order_insert b o h1f h2f]
      obtain ⟨t, ht⟩ := match_orders_snd_ok _
      rw [ht]
      simp

/-- C9: no public operation ever surfaces
`InternalOrderProcessingError`: in particular both `fill` calls inside
the matching loop always succeed, because the fill quantity is the
minimum of the two participants' remaining quantities.  This holds for
every book state and argument, with no quantity hypothesis needed. -/
theorem c9_no_internal_error (b : OrderBook) (o : Order) (id : OrderId) (m : OrderModify) :
    (∀ s, (add_order b o).2 ≠ Except.error (BookError.InternalOrderProcessingError s)) ∧
    (∀ s, (cancel_order b id).2 ≠ Except.error (BookError.InternalOrderProcessingError s)) ∧
    (∀ s, (modify_order b m).2 ≠ Except.error (BookError.InternalOrderProcessingError s)) := by
  refine ⟨fun s => add_order_snd_not_internal b o s, fun s => ?_, fun s => ?_⟩
  · intro h
    have h2 := cancel_order_err b id _ h
    exact absurd h2 (by simp)
  · intro h
    unfold modify_order at h
    cases hg : get_order_ref b m.order_id with
    | error e =>
      rw [hg] at h
      simp at h
      have h2 := get_order_ref_err b m.order_id e hg
      rw [h2] at h
      exact absurd h (by simp)
    | ok old_order =>
      rw [hg] at h
      dsimp only at h
      cases hcp : cancel_order b m.order_id with
      | mk b1 rc =>
        rw [hcp] at h
        cases rc with
        | error e =>
          dsimp only at h
          have h2 : (cancel_order b m.order_id).2 = Except.error e := by
            rw [hcp]
          have h3 := cancel_order_err b m.order_id e h2
          rw [h3] at h
          simp at h
        | ok v =>
          dsimp only at h
          cases hto : m.to_order old_order with
          | error e =>
            rw [hto] at h
            have h2 := to_order_err m old_order e hto
            rw [h2] at h
            simp [BookError.ofOrderError] at h
          | ok new_order =>
            rw [hto] at h
            dsimp only at h
            exact add_order_snd_not_internal b1 new_order s (by rw [h])

lemma sideGet_cons_self (p : Price) (v : Level) (s : SideMap) :
    sideGet ((p, v) :: s) p = some v := by
  unfold sideGet
  rw [List.find?_cons_of_pos _ (by simp)]

lemma sideGet_cons_ne (q : Price) (w : Level) (s : SideMap) (p : Price) (h : q ≠ p) :
    sideGet ((q, w) :: s) p = sideGet s p := by
  unfold sideGet
  rw [List.find?_cons_of_neg _ (by simpa using h)]

lemma sideGet_some_mem (s : SideMap) (p : Price) (lvl : Level)
    (h : sideGet s p = some lvl) : (p, lvl) ∈ s := by
  unfold sideGet at h
  cases hf : s.find? (fun pl => pl.1 == p) with
  | none => rw [hf] at h; exact absurd h (by simp)
  | some pl =>
    rw [hf] at h
    have hmem := List.mem_of_find?_eq_some hf
    have hpp := List.find?_some hf
    simp at h hpp
    have : (p, lvl) = pl := by
      cases pl
      simp at hpp h ⊢
      exact ⟨hpp.symm, h.symm⟩
    rw [this]
    exact hmem

lemma sideGet_none_keys (s : SideMap) (p : Price) (h : sideGet s p = none) :
    ∀ pl : Price × Level, pl ∈ s → pl.1 ≠ p := by
  unfold sideGet at h
  cases hf : s.find? (fun pl => pl.1 == p) with
  | some pl => rw [hf] at h; exact absurd h (by simp)
  | none =>
    intro pl hpl
    have h2 := List.find?_eq_none.mp hf pl hpl
    simpa using h2

lemma sideRemove_eq_self (s : SideMap) (p : Price) (h : sideGet s p = none) :
    sideRemove p s = s := by
  unfold sideRemove
  apply List.filter_eq_self.2
  intro pl hpl
  simpa using sideGet_none_keys s p h pl hpl

lemma sideGet_cons_none (q : Price) (w : Level) (rest : SideMap) (p : Price)
    (h : sideGet ((q, w) :: rest) p = none) :
    q ≠ p ∧ sideGet rest p = none := by
  by_cases hq : q = p
  · subst hq
    rw [sideGet_cons_self] at h
    exact absurd h (by simp)
  · rw [sideGet_cons_ne q w rest p hq] at h
    exact ⟨hq, h⟩

lemma sideRemove_sideInsert_fresh (s : SideMap) (p : Price) (lvl : Level)
    (h : sideGet s p = none) : sideRemove p (sideInsert p lvl s) = s := by
  induction s with
  | nil =>
    unfold sideInsert sideRemove
    simp
  | cons qw rest ih =>
    obtain ⟨q, w⟩ := qw
    obtain ⟨hq, hrest⟩ := sideGet_cons_none q w rest p h
    unfold sideInsert
    by_cases h1 : p < q
    · rw [if_pos h1]
      unfold sideRemove
      rw [List.filter_cons, List.filter_cons]
      have e1 : (decide ((p, lvl).1 ≠ p)) = false := by simp
      have e2 : (decide ((q, w).1 ≠ p)) = true := by simpa using hq
      rw [e1, e2]
      simp only [Bool.false_eq_true, if_false, if_true]
      have h3 := sideRemove_eq_self rest p hrest
      unfold sideRemove at h3
      rw [h3]
    · rw [if_neg h1]
      have h2 : p ≠ q := fun hc => hq hc.symm
      rw [if_neg h2]
      have h4 := ih hrest
      unfold sideRemove at h4 ⊢
      rw [List.filter_cons]
      have e2 : (decide ((q, w).1 ≠ p)) = true := by simpa using hq
      rw [e2]
      simp only [if_true]
      rw [h4]

lemma sideGet_sideInsert_self (s : SideMap) (p : Price) (v : Level) :
    sideGet (sideInsert p v s) p = some v := by
  induction s with
  | nil =>
    unfold sideInsert
    exact sideGet_cons_self p v []
  | cons qw rest ih =>
    obtain ⟨q, w⟩ := qw
    unfold sideInsert
    by_cases h1 : p < q
    · rw [if_pos h1]
      exact sideGet_cons_self p v _
    · rw [if_neg h1]
      by_cases h2 : p = q
      · rw [if_pos h2]
        exact sideGet_cons_self p v _
      · rw [if_neg h2]
        have hq : q ≠ p := fun hc => h2 hc.symm
        rw [sideGet_cons_ne q w _ p hq]
        exact ih

lemma sideInsert_nil (p : Price) (lvl : Level) : sideInsert p lvl [] = [(p, lvl)] := by
  rw [sideInsert.eq_def]

lemma sideInsert_cons (p : Price) (lvl : Level) (q : Price) (w : Level) (rest : SideMap) :
    sideInsert p lvl ((q, w) :: rest) =
      if p < q then (p, lvl) :: (q, w) :: rest
      else if p = q then (p, lvl) :: rest
      else (q, w) :: sideInsert p lvl rest := by
  rw [sideInsert.eq_def]

lemma sideInsert_sideInsert (s : SideMap) (p : Price) (v w : Level) :
    sideInsert p v (sideInsert p w s) = sideInsert p v s := by
  induction s with
  | nil =>
    rw [sideInsert_nil, sideInsert_cons, if_neg (lt_irrefl p), if_pos rfl, sideInsert_nil]
  | cons qw rest ih =>
    obtain ⟨q, u⟩ := qw
    rw [sideInsert_cons p w q u rest]
    by_cases h1 : p < q
    · rw [if_pos h1, sideInsert_cons, if_neg (lt_irrefl p), if_pos rfl,
        sideInsert_cons p v q u rest, if_pos h1]
    · rw [if_neg h1]
      by_cases h2 : p = q
      · rw [if_pos h2, sideInsert_cons, if_neg (lt_irrefl p), if_pos rfl,
          sideInsert_cons p v q u rest, if_neg h1, if_pos h2]
      · rw [if_neg h2, sideInsert_cons p v q u, if_neg h1, if_neg h2, ih,
          sideInsert_cons p v q u rest, if_neg h1, if_neg h2]

lemma sideSorted_cons (q : Price) (w : Level) (rest : SideMap)
    (h : sideSorted ((q, w) :: rest)) :
    (∀ k ∈ sideKeys rest, q < k) ∧ sideSorted rest := by
  unfold sideSorted sideKeys at h ⊢
  rw [List.map_cons, List.pairwise_cons] at h
  exact h

lemma sideGet_of_mem_sorted (s : SideMap) (p : Price) (lvl : Level)
    (hsort : sideSorted s) (hmem : (p, lvl) ∈ s) : sideGet s p = some lvl := by
  induction s with
  | nil => exact absurd hmem (by simp)
  | cons qw rest ih =>
    obtain ⟨q, w⟩ := qw
    obtain ⟨hlt, hrest⟩ := sideSorted_cons q w rest hsort
    rcases List.mem_cons.mp hmem with heq | hmemr
    · have h1 : q = p := by
        have := congrArg Prod.fst heq
        simpa using this.symm
      have h2 : w = lvl := by
        have := congrArg Prod.snd heq
        simpa using this.symm
      subst h1
      subst h2
      exact sideGet_cons_self q w rest
    · have hk : p ∈ sideKeys rest := by
        unfold sideKeys
        exact List.mem_map_of_mem Prod.fst hmemr
      have hqp : q ≠ p := ne_of_lt (hlt p hk)
      rw [sideGet_cons_ne q w rest p hqp]
      exact ih hrest hmemr

lemma sideInsert_self (s : SideMap) (p : Price) (lvl : Level)
    (hsort : sideSorted s) (hget : sideGet s p = some lvl) :
    sideInsert p lvl s = s := by
  induction s with
  | nil => exact absurd hget (by unfold sideGet; simp)
  | cons qw rest ih =>
    obtain ⟨q, w⟩ := qw
    obtain ⟨hlt, hrest⟩ := sideSorted_cons q w rest hsort
    unfold sideInsert
    by_cases h2 : p = q
    · subst h2
      rw [sideGet_cons_self] at hget
      have : w = lvl := by simpa using hget
      subst this
      rw [if_neg (lt_irrefl p), if_pos rfl]
    · have hq : q ≠ p := fun hc => h2 hc.symm
      rw [sideGet_cons_ne q w rest p hq] at hget
      have hk : p ∈ sideKeys rest := by
        unfold sideKeys
        exact List.mem_map_of_mem Prod.fst (sideGet_some_mem rest p lvl hget)
      have h1 : ¬ p < q := not_lt.2 (le_of_lt (hlt p hk))
      rw [if_neg h1, if_neg h2]
      rw [ih hrest hget]

lemma levelInsert_fresh (lvl : Level) (o : Order)
    (h : ∀ x ∈ lvl, x.order_id ≠ o.order_id) :
    levelInsert lvl o = lvl ++ [o] := by
  unfold levelInsert
  have h2 : lvl.any (fun x => x.order_id == o.order_id) = false := by
    rw [List.any_eq_false]
    intro x hx
    simpa using h x hx
  rw [h2]
  simp

lemma levelRemove_append_fresh (lvl : Level) (o : Order)
    (h : ∀ x ∈ lvl, x.order_id ≠ o.order_id) :
    levelRemove (lvl ++ [o]) o.order_id = lvl := by
  unfold levelRemove
  rw [List.filter_append]
  have h1 : List.filter (fun x => decide (x.order_id ≠ o.order_id)) [o] = [] := by
    simp
  rw [h1, List.append_nil]
  apply List.filter_eq_self.2
  intro x hx
  simpa using h x hx

lemma levelRemove_eq_self (lvl : Level) (id : OrderId)
    (h : ∀ x ∈ lvl, x.order_id ≠ id) :
    levelRemove lvl id = lvl := by
  unfold levelRemove
  apply List.filter_eq_self.2
  intro x hx
  simpa using h x hx

lemma isEmpty_false_of_ne_nil (lvl : Level) (h : lvl ≠ []) : lvl.isEmpty = false := by
  cases lvl with
  | nil => exact absurd rfl h
  | cons x xs => rfl

/-- C10 (amended): after `add_order` returns `Ok(None)` for a
FillAndKill order rejected at the admission check, the order's id stays
registered in the id index while the order rests on neither side, and a
subsequent `add_order` with the same id fails with `OrderAlreadyExists`;
`cancel_order` of that id fails with `OrderNotFound` and leaves the stale
entry in place exactly when the order's side has no resting level at its
price; when such a level exists (none of whose orders carry the id),
`cancel_order` instead succeeds, removes the stale entry, and leaves both
sides unchanged. -/
theorem c10_stale_fak_entry (b : OrderBook) (o : Order)
    (hfresh : trackContains b.track_orders o.order_id = false)
    (hfak : o.order_type = OrderType.FillAndKill)
    (hcm : can_match b o.side o.price = false)
    (hsort : sideSorted (b.getSide o.side)) :
    (add_order b o).2 = Except.ok none ∧
    (add_order b o).1.bid_side = b.bid_side ∧
    (add_order b o).1.ask_side = b.ask_side ∧
    trackGet (add_order b o).1.track_orders o.order_id =
      some (OrderEntry.mk o.side o.price o.order_id) ∧
    (∀ o2 : Order, o2.order_id = o.order_id →
      add_order (add_order b o).1 o2 =
        ((add_order b o).1, Except.error (BookError.OrderAlreadyExists o2.order_id))) ∧
    (sideGet (b.getSide o.side) o.price = none →
      cancel_order (add_order b o).1 o.order_id =
        ((add_order b o).1, Except.error (BookError.OrderNotFound o.order_id))) ∧
    (∀ lvl : Level, sideGet (b.getSide o.side) o.price = some lvl →
      (∀ x ∈ lvl, x.order_id ≠ o.order_id) → lvl ≠ [] →
      (cancel_order (add_order b o).1 o.order_id).2 = Except.ok o.order_id ∧
      trackContains
        (cancel_order (add_order b o).1 o.order_id).1.track_orders o.order_id = false ∧
      (cancel_order (add_order b o).1 o.order_id).1.bid_side = b.bid_side ∧
      (cancel_order (add_order b o).1 o.order_id).1.ask_side = b.ask_side) := by
  have hre := add_order_fak_reject b o hfresh hfak hcm
  have hb1 : (add_order b o).1 =
      { b with track_orders :=
        (o.order_id, OrderEntry.mk o.side o.price o.order_id) :: b.track_orders } := by
    rw [hre, trackInsert_fresh b.track_orders o.order_id _ hfresh]
  have hbg : trackGet (add_order b o).1.track_orders o.order_id =
      some (OrderEntry.mk o.side o.price o.order_id) := by
    rw [hb1]
    exact trackGet_cons_self b.track_orders o.order_id _
  refine ⟨by rw [hre], by rw [hb1], by rw [hb1], hbg, ?_, ?_, ?_⟩
  · intro o2 ho2
    apply add_order_dup
    rw [ho2]
    unfold trackContains
    rw [hbg]
    rfl
  · intro hnone
    apply cancel_order_no_level (add_order b o).1 o.order_id
      (OrderEntry.mk o.side o.price o.order_id) hbg
    show sideGet ((add_order b o).1.getSide o.side) o.price = none
    rw [hb1, getSide_track_irrel]
    exact hnone
  · intro lvl hget hids hne
    have hs : sideGet ((add_order b o).1.getSide o.side) o.price = some lvl := by
      rw [hb1, getSide_track_irrel]
      exact hget
    have hc := cancel_order_found (add_order b o).1 o.order_id
      (OrderEntry.mk o.side o.price o.order_id) lvl hbg hs
    rw [levelRemove_eq_self lvl o.order_id hids] at hc
    rw [isEmpty_false_of_ne_nil lvl hne] at hc
    simp only [Bool.false_eq_true, if_false] at hc
    have hside : sideInsert o.price lvl ((add_order b o).1.getSide o.side) =
        b.getSide o.side := by
      rw [hb1, getSide_track_irrel]
      exact sideInsert_self (b.getSide o.side) o.price lvl hsort hget
    rw [hside] at hc
    have htr : trackRemove (add_order b o).1.track_orders o.order_id = b.track_orders := by
      rw [hb1]
      exact trackRemove_cons_fresh b.track_orders o.order_id _ hfresh
    rw [htr] at hc
    rw [hc]
    refine ⟨rfl, hfresh, ?_, ?_⟩
    · cases hsd : o.side
      · rw [hb1]
        show b.bid_side = b.bid_side
        rfl
      · rw [hb1]
        show b.bid_side = b.bid_side
        rfl
    · cases hsd : o.side
      · rw [hb1]
        show b.ask_side = b.ask_side
        rfl
      · rw [hb1]
        show b.ask_side = b.ask_side
        rfl

/-- Witness for C10 at a concrete input: the rejected FillAndKill sell
on the empty book returns `Ok(None)`. -/
theorem c10_witness : (add_order OrderBook.empty c1order).2 = Except.ok none :=
  (c10_stale_fak_entry OrderBook.empty c1order (by decide) (by decide)
    (by decide) List.Pairwise.nil).1

/-- C2 (amended): after the matching loop terminates, for each non-empty
side the book inspects the *newest* (most recently inserted) order at
the *worst* price level of that side — the lowest bid price on the buy
side, the highest ask price on the sell side — and cancels exactly that
order if and only if it is FillAndKill; no other order is touched by the
sweep. -/
theorem c2_prune_worst_newest (b : OrderBook) (s : Side) (wp : Price)
    (lvl : Level) (o : Order)
    (hlvl : (match s with
      | Side.Buy => b.bid_side.head?
      | Side.Sell => b.ask_side.getLast?) = some (wp, lvl))
    (ho : lvl.getLast? = some o)
    (htrack : trackGet b.track_orders o.order_id =
      some (OrderEntry.mk s wp o.order_id))
    (hsort : sideSorted (b.getSide s))
    (hids : ∀ x ∈ lvl.dropLast, x.order_id ≠ o.order_id) :
    (o.order_type = OrderType.GoodTillCancel → prune_fak_from_order_book b s = b) ∧
    (o.order_type = OrderType.FillAndKill →
      prune_fak_from_order_book b s =
        { b.setSide s (if lvl.dropLast.isEmpty then sideRemove wp (b.getSide s)
            else sideInsert wp lvl.dropLast (b.getSide s)) with
          track_orders := trackRemove b.track_orders o.order_id }) := by
  obtain ⟨ys, hys⟩ := List.getLast?_eq_some_iff.mp ho
  have hdrop : lvl.dropLast = ys := by
    rw [hys]
    simp
  have hlr : levelRemove lvl o.order_id = lvl.dropLast := by
    rw [hdrop, hys]
    exact levelRemove_append_fresh ys o (hdrop ▸ hids)
  cases s with
  | Buy =>
    dsimp only at hlvl
    have hmem : (wp, lvl) ∈ b.getSide Side.Buy := by
      cases hb : b.bid_side with
      | nil => rw [hb] at hlvl; exact absurd hlvl (by simp)
      | cons x rest =>
        rw [hb] at hlvl
        simp at hlvl
        show (wp, lvl) ∈ b.bid_side
        rw [hb, hlvl]
        exact List.mem_cons_self _ _
    have hget : sideGet (b.getSide Side.Buy) wp = some lvl :=
      sideGet_of_mem_sorted _ wp lvl hsort hmem
    constructor
    · intro hgtc
      unfold prune_fak_from_order_book
      simp only [hlvl]
      rw [ho]
      simp only [hgtc]
    · intro hfak
      unfold prune_fak_from_order_book
      simp only [hlvl]
      rw [ho]
      simp only [hfak]
      rw [cancel_order_found b o.order_id (OrderEntry.mk Side.Buy wp o.order_id) lvl
        htrack hget]
      rw [hlr]
  | Sell =>
    dsimp only at hlvl
    have hmem : (wp, lvl) ∈ b.getSide Side.Sell := by
      obtain ⟨zs, hzs⟩ := List.getLast?_eq_some_iff.mp hlvl
      show (wp, lvl) ∈ b.ask_side
      rw [hzs]
      exact List.mem_append_right _ (by simp)
    have hget : sideGet (b.getSide Side.Sell) wp = some lvl :=
      sideGet_of_mem_sorted _ wp lvl hsort hmem
    constructor
    · intro hgtc
      unfold prune_fak_from_order_book
      simp only [hlvl]
      rw [ho]
      simp only [hgtc]
    · intro hfak
      unfold prune_fak_from_order_book
      simp only [hlvl]
      rw [ho]
      simp only [hfak]
      rw [cancel_order_found b o.order_id (OrderEntry.mk Side.Sell wp o.order_id) lvl
        htrack hget]
      rw [hlr]

/-- Witness for C2 at a concrete input: the sweep cancels the
FillAndKill order that is the newest order of the worst (lowest) bid
level. -/
theorem c2_witness :
    prune_fak_from_order_book
      { bid_side := [(90, [gtcOrder 12 Side.Buy 90 4, fakOrder 11 Side.Buy 90 4])],
        ask_side := [],
        track_orders := [bookEntry 12 Side.Buy 90, bookEntry 11 Side.Buy 90] }
      Side.Buy =
      { OrderBook.mk [(90, [gtcOrder 12 Side.Buy 90 4, fakOrder 11 Side.Buy 90 4])]
          [] [bookEntry 12 Side.Buy 90, bookEntry 11 Side.Buy 90]
        |>.setSide Side.Buy
          (if ([gtcOrder 12 Side.Buy 90 4, fakOrder 11 Side.Buy 90 4].dropLast).isEmpty
           then sideRemove 90 [(90, [gtcOrder 12 Side.Buy 90 4, fakOrder 11 Side.Buy 90 4])]
           else sideInsert 90 ([gtcOrder 12 Side.Buy 90 4, fakOrder 11 Side.Buy 90 4].dropLast)
             [(90, [gtcOrder 12 Side.Buy 90 4, fakOrder 11 Side.Buy 90 4])]) with
        track_orders := trackRemove [bookEntry 12 Side.Buy 90, bookEntry 11 Side.Buy 90] 11 } :=
  (c2_prune_worst_newest
    { bid_side := [(90, [gtcOrder 12 Side.Buy 90 4, fakOrder 11 Side.Buy 90 4])],
      ask_side := [],
      track_orders := [bookEntry 12 Side.Buy 90, bookEntry 11 Side.Buy 90] }
    Side.Buy 90 [gtcOrder 12 Side.Buy 90 4, fakOrder 11 Side.Buy 90 4]
    (fakOrder 11 Side.Buy 90 4)
    (by decide) (by decide) (by decide)
    (by simp [sideSorted, sideKeys, OrderBook.getSide])
    (by decide)).2 (by decide)

lemma mem_of_head? {a : Type} (l : List a) (x : a) (h : l.head? = some x) : x ∈ l := by
  cases l with
  | nil => exact absurd h (by simp)
  | cons y ys =>
    simp at h
    rw [← h]
    exact List.mem_cons_self _ _

lemma trackGet_none_of_contains_false (t : Track) (id : OrderId)
    (h : trackContains t id = false) : trackGet t id = none := by
  unfold trackContains at h
  cases hg : trackGet t id with
  | none => rfl
  | some e => rw [hg] at h; exact absurd h (by simp)

lemma mem_sideInsert (s : SideMap) (p : Price) (v : Level) (pl : Price × Level)
    (h : pl ∈ sideInsert p v s) : pl = (p, v) ∨ pl ∈ s := by
  induction s with
  | nil =>
    rw [sideInsert_nil] at h
    simp at h
    exact Or.inl h
  | cons qw rest ih =>
    obtain ⟨q, w⟩ := qw
    rw [sideInsert_cons] at h
    by_cases h1 : p < q
    · rw [if_pos h1] at h
      rcases List.mem_cons.mp h with h2 | h2
      · exact Or.inl h2
      · exact Or.inr h2
    · rw [if_neg h1] at h
      by_cases h2 : p = q
      · rw [if_pos h2] at h
        rcases List.mem_cons.mp h with h3 | h3
        · exact Or.inl h3
        · exact Or.inr (List.mem_cons_of_mem _ h3)
      · rw [if_neg h2] at h
        rcases List.mem_cons.mp h with h3 | h3
        · exact Or.inr (h3 ▸ List.mem_cons_self _ _)
        · rcases ih h3 with h4 | h4
          · exact Or.inl h4
          · exact Or.inr (List.mem_cons_of_mem _ h4)

lemma prune_noop_all_gtc (b : OrderBook) (s : Side)
    (h : ∀ pl ∈ b.getSide s, ∀ x ∈ pl.2,
      x.order_type = OrderType.GoodTillCancel) :
    prune_fak_from_order_book b s = b := by
  cases s with
  | Buy =>
    unfold prune_fak_from_order_book
    dsimp only
    cases hh : b.bid_side.head? with
    | none => rfl
    | some pl =>
      have hmem : pl ∈ b.getSide Side.Buy := mem_of_head? _ _ hh
      dsimp only
      cases hlast : pl.2.getLast? with
      | none => rfl
      | some o =>
        have homem : o ∈ pl.2 := by
          obtain ⟨ys, hys⟩ := List.getLast?_eq_some_iff.mp hlast
          rw [hys]
          exact List.mem_append_right _ (by simp)
        have hot := h pl hmem o homem
        dsimp only
        simp only [hot]
  | Sell =>
    unfold prune_fak_from_order_book
    dsimp only
    cases hh : b.ask_side.getLast? with
    | none => rfl
    | some pl =>
      have hmem : pl ∈ b.getSide Side.Sell := by
        obtain ⟨ys, hys⟩ := List.getLast?_eq_some_iff.mp hh
        show pl ∈ b.ask_side
        rw [hys]
        exact List.mem_append_right _ (by simp)
      dsimp only
      cases hlast : pl.2.getLast? with
      | none => rfl
      | some o =>
        have homem : o ∈ pl.2 := by
          obtain ⟨ys, hys⟩ := List.getLast?_eq_some_iff.mp hlast
          rw [hys]
          exact List.mem_append_right _ (by simp)
        have hot := h pl hmem o homem
        dsimp only
        simp only [hot]

lemma matchLoop_stop (n : Nat) (bid ask : SideMap) (tr : List Trade)
    (h : (ask.isEmpty || bid.isEmpty) = true) :
    matchLoop (n + 1) bid ask tr = (bid, ask, tr, none) := by
  unfold matchLoop
  rw [if_pos h]

lemma match_orders_calm (b : OrderBook)
    (hemp : (b.ask_side.isEmpty || b.bid_side.isEmpty) = true)
    (hpb : prune_fak_from_order_book b Side.Buy = b)
    (hps : prune_fak_from_order_book b Side.Sell = b) :
    match_orders b = (b, Except.ok none) := by
  unfold match_orders
  dsimp only
  rw [matchLoop_stop _ _ _ _ hemp]
  dsimp only
  rw [show ({ b with bid_side := b.bid_side, ask_side := b.ask_side } : OrderBook) = b from rfl]
  by_cases hb : b.bid_side.isEmpty = true
  · rw [if_pos hb]
    by_cases ha : b.ask_side.isEmpty = true
    · rw [if_pos ha]
      rfl
    · rw [if_neg ha, hps]
      rfl
  · rw [if_neg hb, hpb]
    by_cases ha : b.ask_side.isEmpty = true
    · rw [if_pos ha]
      rfl
    · rw [if_neg ha, hps]
      rfl

lemma levelRemove_single (o : Order) : levelRemove [o] o.order_id = [] := by
  unfold levelRemove
  simp

/-- C6 (amended): for a fresh GoodTillCancel order whose opposite side is
empty and whose own side holds only GoodTillCancel orders with other ids
(so the add neither crosses, nor loses popped levels, nor triggers the
sweep), `add_order(o); cancel(o.id); cancel(o.id)` behaves as the law
says: the add returns `Ok(None)`, the first cancel succeeds and restores
the book to exactly the pre-add state, and the second cancel returns
`OrderNotFound` leaving the book unchanged. -/
theorem c6_add_cancel_cancel (b : OrderBook) (o : Order)
    (hfresh : trackContains b.track_orders o.order_id = false)
    (hgtc : o.order_type = OrderType.GoodTillCancel)
    (hopp : b.oppSide o.side = [])
    (hall : ∀ pl ∈ b.getSide o.side, ∀ x ∈ pl.2,
      x.order_type = OrderType.GoodTillCancel ∧ x.order_id ≠ o.order_id)
    (hsort : sideSorted (b.getSide o.side))
    (hne : ∀ pl ∈ b.getSide o.side, pl.2 ≠ []) :
    (add_order b o).2 = Except.ok none ∧
    (cancel_order (add_order b o).1 o.order_id).2 = Except.ok o.order_id ∧
    (cancel_order (add_order b o).1 o.order_id).1 = b ∧
    cancel_order b o.order_id = (b, Except.error (BookError.OrderNotFound o.order_id)) := by
  have hsecond : cancel_order b o.order_id =
      (b, Except.error (BookError.OrderNotFound o.order_id)) :=
    cancel_order_none b o.order_id (trackGet_none_of_contains_false _ _ hfresh)
  have hfakcheck : (o.order_type == OrderType.FillAndKill &&
      !(can_match b o.side o.price)) = false := by
    rw [hgtc]
    rfl
  have hins := add_order_insert b o hfresh hfakcheck
  cases hsd : o.side with
  | Buy =>
    rw [hsd] at hins hopp hall hsort hne
    have hask : b.ask_side = [] := hopp
    cases hsg : sideGet (b.getSide Side.Buy) o.price with
    | some lvl =>
      rw [hsg] at hins
      dsimp only at hins
      have hlvlmem : (o.price, lvl) ∈ b.getSide Side.Buy := sideGet_some_mem _ _ _ hsg
      have hids : ∀ x ∈ lvl, x.order_id ≠ o.order_id := fun x hx => (hall _ hlvlmem x hx).2
      have hgtcs : ∀ x ∈ lvl, x.order_type = OrderType.GoodTillCancel :=
        fun x hx => (hall _ hlvlmem x hx).1
      have hlvlne : lvl ≠ [] := hne _ hlvlmem
      rw [levelInsert_fresh lvl o hids] at hins
      set B2 : OrderBook :=
        ({ b with track_orders := trackInsert b.track_orders o.order_id (OrderEntry.mk Side.Buy o.price o.order_id) }).setSide Side.Buy
          (sideInsert o.price (lvl ++ [o]) (b.getSide Side.Buy)) with hB2
      have hB2ask : B2.ask_side = [] := hask
      have hemp : (B2.ask_side.isEmpty || B2.bid_side.isEmpty) = true := by
        rw [hB2ask]
        rfl
      have hallg : ∀ pl ∈ B2.getSide Side.Buy, ∀ x ∈ pl.2,
          x.order_type = OrderType.GoodTillCancel := by
        intro pl hpl x hx
        have hpl2 : pl = (o.price, lvl ++ [o]) ∨ pl ∈ b.getSide Side.Buy :=
          mem_sideInsert _ _ _ _ hpl
        rcases hpl2 with h1 | h1
        · rw [h1] at hx
          rcases List.mem_append.mp hx with h2 | h2
          · exact hgtcs x h2
          · rw [List.mem_singleton.mp h2]
            exact hgtc
        · exact (hall pl h1 x hx).1
      have hvac : ∀ pl ∈ B2.getSide Side.Sell, ∀ x ∈ pl.2,
          x.order_type = OrderType.GoodTillCancel := by
        intro pl hpl
        rw [show B2.getSide Side.Sell = ([] : SideMap) from hB2ask] at hpl
        exact absurd hpl (by simp)
      have hcalm := match_orders_calm B2 hemp
        (prune_noop_all_gtc B2 Side.Buy hallg) (prune_noop_all_gtc B2 Side.Sell hvac)
      rw [hcalm] at hins
      have hg2 : trackGet B2.track_orders o.order_id =
          some (OrderEntry.mk Side.Buy o.price o.order_id) := by
        show trackGet (trackInsert b.track_orders o.order_id
          (OrderEntry.mk Side.Buy o.price o.order_id)) o.order_id = _
        rw [trackInsert_fresh _ _ _ hfresh]
        exact trackGet_cons_self _ _ _
      have hs2 : sideGet (B2.getSide Side.Buy) o.price = some (lvl ++ [o]) := by
        show sideGet (sideInsert o.price (lvl ++ [o]) (b.getSide Side.Buy)) o.price = _
        exact sideGet_sideInsert_self _ _ _
      have hcf := cancel_order_found B2 o.order_id
        (OrderEntry.mk Side.Buy o.price o.order_id) (lvl ++ [o]) hg2 hs2
      dsimp only at hcf
      rw [levelRemove_append_fresh lvl o hids] at hcf
      rw [isEmpty_false_of_ne_nil lvl hlvlne] at hcf
      simp only [Bool.false_eq_true, if_false] at hcf
      have hside2 : sideInsert o.price lvl (B2.getSide Side.Buy) = b.getSide Side.Buy := by
        show sideInsert o.price lvl
          (sideInsert o.price (lvl ++ [o]) (b.getSide Side.Buy)) = _
        rw [sideInsert_sideInsert]
        exact sideInsert_self _ _ _ hsort hsg
      rw [hside2] at hcf
      have htr2 : trackRemove B2.track_orders o.order_id = b.track_orders := by
        show trackRemove (trackInsert b.track_orders o.order_id
          (OrderEntry.mk Side.Buy o.price o.order_id)) o.order_id = _
        rw [trackInsert_fresh _ _ _ hfresh]
        exact trackRemove_cons_fresh _ _ _ hfresh
      rw [htr2] at hcf
      refine ⟨by rw [hins], ?_, ?_, hsecond⟩
      · rw [hins]
        show (cancel_order B2 o.order_id).2 = Except.ok o.order_id
        rw [hcf]
      · rw [hins]
        show (cancel_order B2 o.order_id).1 = b
        rw [hcf]
        rfl
    | none =>
      rw [hsg] at hins
      dsimp only at hins
      set B2 : OrderBook :=
        ({ b with track_orders := trackInsert b.track_orders o.order_id (OrderEntry.mk Side.Buy o.price o.order_id) }).setSide Side.Buy
          (sideInsert o.price [o] (b.getSide Side.Buy)) with hB2
      have hB2ask : B2.ask_side = [] := hask
      have hemp : (B2.ask_side.isEmpty || B2.bid_side.isEmpty) = true := by
        rw [hB2ask]
        rfl
      have hallg : ∀ pl ∈ B2.getSide Side.Buy, ∀ x ∈ pl.2,
          x.order_type = OrderType.GoodTillCancel := by
        intro pl hpl x hx
        have hpl2 : pl = (o.price, [o]) ∨ pl ∈ b.getSide Side.Buy :=
          mem_sideInsert _ _ _ _ hpl
        rcases hpl2 with h1 | h1
        · rw [h1] at hx
          rw [List.mem_singleton.mp hx]
          exact hgtc
        · exact (hall pl h1 x hx).1
      have hvac : ∀ pl ∈ B2.getSide Side.Sell, ∀ x ∈ pl.2,
          x.order_type = OrderType.GoodTillCancel := by
        intro pl hpl
        rw [show B2.getSide Side.Sell = ([] : SideMap) from hB2ask] at hpl
        exact absurd hpl (by simp)
      have hcalm := match_orders_calm B2 hemp
        (prune_noop_all_gtc B2 Side.Buy hallg) (prune_noop_all_gtc B2 Side.Sell hvac)
      rw [hcalm] at hins
      have hg2 : trackGet B2.track_orders o.order_id =
          some (OrderEntry.mk Side.Buy o.price o.order_id) := by
        show trackGet (trackInsert b.track_orders o.order_id
          (OrderEntry.mk Side.Buy o.price o.order_id)) o.order_id = _
        rw [trackInsert_fresh _ _ _ hfresh]
        exact trackGet_cons_self _ _ _
      have hs2 : sideGet (B2.getSide Side.Buy) o.price = some [o] := by
        show sideGet (sideInsert o.price [o] (b.getSide Side.Buy)) o.price = _
        exact sideGet_sideInsert_self _ _ _
      have hcf := cancel_order_found B2 o.order_id
        (OrderEntry.mk Side.Buy o.price o.order_id) [o] hg2 hs2
      dsimp only at hcf
      rw [levelRemove_single o] at hcf
      simp only [List.isEmpty_nil, if_true] at hcf
      have hside2 : sideRemove o.price (B2.getSide Side.Buy) = b.getSide Side.Buy := by
        show sideRemove o.price (sideInsert o.price [o] (b.getSide Side.Buy)) = _
        exact sideRemove_sideInsert_fresh _ _ _ hsg
      rw [hside2] at hcf
      have htr2 : trackRemove B2.track_orders o.order_id = b.track_orders := by
        show trackRemove (trackInsert b.track_orders o.order_id
          (OrderEntry.mk Side.Buy o.price o.order_id)) o.order_id = _
        rw [trackInsert_fresh _ _ _ hfresh]
        exact trackRemove_cons_fresh _ _ _ hfresh
      rw [htr2] at hcf
      refine ⟨by rw [hins], ?_, ?_, hsecond⟩
      · rw [hins]
        show (cancel_order B2 o.order_id).2 = Except.ok o.order_id
        rw [hcf]
      · rw [hins]
        show (cancel_order B2 o.order_id).1 = b
        rw [hcf]
        rfl
  | Sell =>
    rw [hsd] at hins hopp hall hsort hne
    have hbid : b.bid_side = [] := hopp
    cases hsg : sideGet (b.getSide Side.Sell) o.price with
    | some lvl =>
      rw [hsg] at hins
      dsimp only at hins
      have hlvlmem : (o.price, lvl) ∈ b.getSide Side.Sell := sideGet_some_mem _ _ _ hsg
      have hids : ∀ x ∈ lvl, x.order_id ≠ o.order_id := fun x hx => (hall _ hlvlmem x hx).2
      have hgtcs : ∀ x ∈ lvl, x.order_type = OrderType.GoodTillCancel :=
        fun x hx => (hall _ hlvlmem x hx).1
      have hlvlne : lvl ≠ [] := hne _ hlvlmem
      rw [levelInsert_fresh lvl o hids] at hins
      set B2 : OrderBook :=
        ({ b with track_orders := trackInsert b.track_orders o.order_id (OrderEntry.mk Side.Sell o.price o.order_id) }).setSide Side.Sell
          (sideInsert o.price (lvl ++ [o]) (b.getSide Side.Sell)) with hB2
      have hB2bid : B2.bid_side = [] := hbid
      have hemp : (B2.ask_side.isEmpty || B2.bid_side.isEmpty) = true := by
        rw [hB2bid]
        simp
      have hallg : ∀ pl ∈ B2.getSide Side.Sell, ∀ x ∈ pl.2,
          x.order_type = OrderType.GoodTillCancel := by
        intro pl hpl x hx
        have hpl2 : pl = (o.price, lvl ++ [o]) ∨ pl ∈ b.getSide Side.Sell :=
          mem_sideInsert _ _ _ _ hpl
        rcases hpl2 with h1 | h1
        · rw [h1] at hx
          rcases List.mem_append.mp hx with h2 | h2
          · exact hgtcs x h2
          · rw [List.mem_singleton.mp h2]
            exact hgtc
        · exact (hall pl h1 x hx).1
      have hvac : ∀ pl ∈ B2.getSide Side.Buy, ∀ x ∈ pl.2,
          x.order_type = OrderType.GoodTillCancel := by
        intro pl hpl
        rw [show B2.getSide Side.Buy = ([] : SideMap) from hB2bid] at hpl
        exact absurd hpl (by simp)
      have hcalm := match_orders_calm B2 hemp
        (prune_noop_all_gtc B2 Side.Buy hvac) (prune_noop_all_gtc B2 Side.Sell hallg)
      rw [hcalm] at hins
      have hg2 : trackGet B2.track_orders o.order_id =
          some (OrderEntry.mk Side.Sell o.price o.order_id) := by
        show trackGet (trackInsert b.track_orders o.order_id
          (OrderEntry.mk Side.Sell o.price o.order_id)) o.order_id = _
        rw [trackInsert_fresh _ _ _ hfresh]
        exact trackGet_cons_self _ _ _
      have hs2 : sideGet (B2.getSide Side.Sell) o.price = some (lvl ++ [o]) := by
        show sideGet (sideInsert o.price (lvl ++ [o]) (b.getSide Side.Sell)) o.price = _
        exact sideGet_sideInsert_self _ _ _
      have hcf := cancel_order_found B2 o.order_id
        (OrderEntry.mk Side.Sell o.price o.order_id) (lvl ++ [o]) hg2 hs2
      dsimp only at hcf
      rw [levelRemove_append_fresh lvl o hids] at hcf
      rw [isEmpty_false_of_ne_nil lvl hlvlne] at hcf
      simp only [Bool.false_eq_true, if_false] at hcf
      have hside2 : sideInsert o.price lvl (B2.getSide Side.Sell) = b.getSide Side.Sell := by
        show sideInsert o.price lvl
          (sideInsert o.price (lvl ++ [o]) (b.getSide Side.Sell)) = _
        rw [sideInsert_sideInsert]
        exact sideInsert_self _ _ _ hsort hsg
      rw [hside2] at hcf
      have htr2 : trackRemove B2.track_orders o.order_id = b.track_orders := by
        show trackRemove (trackInsert b.track_orders o.order_id
          (OrderEntry.mk Side.Sell o.price o.order_id)) o.order_id = _
        rw [trackInsert_fresh _ _ _ hfresh]
        exact trackRemove_cons_fresh _ _ _ hfresh
      rw [htr2] at hcf
      refine ⟨by rw [hins], ?_, ?_, hsecond⟩
      · rw [hins]
        show (cancel_order B2 o.order_id).2 = Except.ok o.order_id
        rw [hcf]
      · rw [hins]
        show (cancel_order B2 o.order_id).1 = b
        rw [hcf]
        rfl
    | none =>
      rw [hsg] at hins
      dsimp only at hins
      set B2 : OrderBook :=
        ({ b with track_orders := trackInsert b.track_orders o.order_id (OrderEntry.mk Side.Sell o.price o.order_id) }).setSide Side.Sell
          (sideInsert o.price [o] (b.getSide Side.Sell)) with hB2
      have hB2bid : B2.bid_side = [] := hbid
      have hemp : (B2.ask_side.isEmpty || B2.bid_side.isEmpty) = true := by
        rw [hB2bid]
        simp
      have hallg : ∀ pl ∈ B2.getSide Side.Sell, ∀ x ∈ pl.2,
          x.order_type = OrderType.GoodTillCancel := by
        intro pl hpl x hx
        have hpl2 : pl = (o.price, [o]) ∨ pl ∈ b.getSide Side.Sell :=
          mem_sideInsert _ _ _ _ hpl
        rcases hpl2 with h1 | h1
        · rw [h1] at hx
          rw [List.mem_singleton.mp hx]
          exact hgtc
        · exact (hall pl h1 x hx).1
      have hvac : ∀ pl ∈ B2.getSide Side.Buy, ∀ x ∈ pl.2,
          x.order_type = OrderType.GoodTillCancel := by
        intro pl hpl
        rw [show B2.getSide Side.Buy = ([] : SideMap) from hB2bid] at hpl
        exact absurd hpl (by simp)
      have hcalm := match_orders_calm B2 hemp
        (prune_noop_all_gtc B2 Side.Buy hvac) (prune_noop_all_gtc B2 Side.Sell hallg)
      rw [hcalm] at hins
      have hg2 : trackGet B2.track_orders o.order_id =
          some (OrderEntry.mk Side.Sell o.price o.order_id) := by
        show trackGet (trackInsert b.track_orders o.order_id
          (OrderEntry.mk Side.Sell o.price o.order_id)) o.order_id = _
        rw [trackInsert_fresh _ _ _ hfresh]
        exact trackGet_cons_self _ _ _
      have hs2 : sideGet (B2.getSide Side.Sell) o.price = some [o] := by
        show sideGet (sideInsert o.price [o] (b.getSide Side.Sell)) o.price = _
        exact sideGet_sideInsert_self _ _ _
      have hcf := cancel_order_found B2 o.order_id
        (OrderEntry.mk Side.Sell o.price o.order_id) [o] hg2 hs2
      dsimp only at hcf
      rw [levelRemove_single o] at hcf
      simp only [List.isEmpty_nil, if_true] at hcf
      have hside2 : sideRemove o.price (B2.getSide Side.Sell) = b.getSide Side.Sell := by
        show sideRemove o.price (sideInsert o.price [o] (b.getSide Side.Sell)) = _
        exact sideRemove_sideInsert_fresh _ _ _ hsg
      rw [hside2] at hcf
      have htr2 : trackRemove B2.track_orders o.order_id = b.track_orders := by
        show trackRemove (trackInsert b.track_orders o.order_id
          (OrderEntry.mk Side.Sell o.price o.order_id)) o.order_id = _
        rw [trackInsert_fresh _ _ _ hfresh]
        exact trackRemove_cons_fresh _ _ _ hfresh
      rw [htr2] at hcf
      refine ⟨by rw [hins], ?_, ?_, hsecond⟩
      · rw [hins]
        show (cancel_order B2 o.order_id).2 = Except.ok o.order_id
        rw [hcf]
      · rw [hins]
        show (cancel_order B2 o.order_id).1 = b
        rw [hcf]
        rfl

/-- Witness for the amended C6 law at a concrete book and order. -/
theorem c6_witness :
    (add_order c6wbook (gtcOrder 1 Side.Buy 100 5)).2 = Except.ok none ∧
    (cancel_order (add_order c6wbook (gtcOrder 1 Side.Buy 100 5)).1 1).2 = Except.ok 1 ∧
    (cancel_order (add_order c6wbook (gtcOrder 1 Side.Buy 100 5)).1 1).1 = c6wbook ∧
    cancel_order c6wbook 1 = (c6wbook, Except.error (BookError.OrderNotFound 1)) :=
  c6_add_cancel_cancel c6wbook (gtcOrder 1 Side.Buy 100 5) (by decide) rfl rfl
    (by decide) (by unfold sideSorted; decide) (by decide)

lemma keysMax_mem (l : List Price) (m : Price) (h : keysMax l = some m) : m ∈ l := by
  induction l generalizing m with
  | nil => exact absurd h (by simp [keysMax])
  | cons p rest ih =>
    unfold keysMax at h
    cases hr : keysMax rest with
    | none =>
      rw [hr] at h
      simp at h
      simp [h]
    | some q =>
      rw [hr] at h
      simp at h
      rw [← h]
      rcases max_choice p q with hm | hm
      · rw [hm]
        exact List.mem_cons_self _ _
      · rw [hm]
        exact List.mem_cons_of_mem _ (ih q hr)

lemma le_keysMax (l : List Price) (p : Price) (h : p ∈ l) :
    ∃ m, keysMax l = some m ∧ p ≤ m := by
  induction l with
  | nil => exact absurd h (by simp)
  | cons q rest ih =>
    unfold keysMax
    cases hr : keysMax rest with
    | none =>
      have hnil : rest = [] := by
        cases rest with
        | nil => rfl
        | cons a t =>
          unfold keysMax at hr
          cases ht : keysMax t with
          | none => rw [ht] at hr; exact absurd hr (by simp)
          | some z => rw [ht] at hr; exact absurd hr (by simp)
      subst hnil
      simp at h
      exact ⟨q, rfl, le_of_eq h⟩
    | some w =>
      rcases List.mem_cons.mp h with h1 | h1
      · exact ⟨max q w, rfl, h1 ▸ le_max_left q w⟩
      · obtain ⟨m, hm, hpm⟩ := ih h1
        rw [hm] at hr
        cases hr
        exact ⟨max q w, rfl, le_trans hpm (le_max_right q w)⟩

lemma keysMin_mem (l : List Price) (m : Price) (h : keysMin l = some m) : m ∈ l := by
  induction l generalizing m with
  | nil => exact absurd h (by simp [keysMin])
  | cons p rest ih =>
    unfold keysMin at h
    cases hr : keysMin rest with
    | none =>
      rw [hr] at h
      simp at h
      simp [h]
    | some q =>
      rw [hr] at h
      simp at h
      rw [← h]
      rcases min_choice p q with hm | hm
      · rw [hm]
        exact List.mem_cons_self _ _
      · rw [hm]
        exact List.mem_cons_of_mem _ (ih q hr)

lemma keysMin_le (l : List Price) (p : Price) (h : p ∈ l) :
    ∃ m, keysMin l = some m ∧ m ≤ p := by
  induction l with
  | nil => exact absurd h (by simp)
  | cons q rest ih =>
    unfold keysMin
    cases hr : keysMin rest with
    | none =>
      have hnil : rest = [] := by
        cases rest with
        | nil => rfl
        | cons a t =>
          unfold keysMin at hr
          cases ht : keysMin t with
          | none => rw [ht] at hr; exact absurd hr (by simp)
          | some z => rw [ht] at hr; exact absurd hr (by simp)
      subst hnil
      simp at h
      exact ⟨q, rfl, le_of_eq h.symm⟩
    | some w =>
      rcases List.mem_cons.mp h with h1 | h1
      · exact ⟨min q w, rfl, h1 ▸ min_le_left q w⟩
      · obtain ⟨m, hm, hpm⟩ := ih h1
        rw [hm] at hr
        cases hr
        exact ⟨min q w, rfl, le_trans (min_le_right q w) hpm⟩

lemma crossOK_of_crossP (b : OrderBook) (h : crossP b.bid_side b.ask_side) :
    crossOK b = true := by
  unfold crossOK
  cases hb : keysMax (sideKeys b.bid_side) with
  | none => rfl
  | some bb =>
    cases ha : keysMin (sideKeys b.ask_side) with
    | none => rfl
    | some ba =>
      have hbb := keysMax_mem _ _ hb
      have hba := keysMin_mem _ _ ha
      simpa using h bb hbb ba hba

lemma crossP_of_crossOK (b : OrderBook) (h : crossOK b = true) :
    crossP b.bid_side b.ask_side := by
  intro p hp q hq
  obtain ⟨bb, hbb, hple⟩ := le_keysMax _ p hp
  obtain ⟨ba, hba, hbaq⟩ := keysMin_le _ q hq
  unfold crossOK at h
  rw [hbb, hba] at h
  simp at h
  exact lt_of_le_of_lt hple (lt_of_lt_of_le h hbaq)

lemma sideKeys_append (s1 s2 : SideMap) :
    sideKeys (s1 ++ s2) = sideKeys s1 ++ sideKeys s2 := by
  unfold sideKeys
  exact List.map_append _ _ _

lemma sideKeys_sideInsert_subset (s : SideMap) (p : Price) (v : Level) (k : Price)
    (h : k ∈ sideKeys (sideInsert p v s)) : k = p ∨ k ∈ sideKeys s := by
  unfold sideKeys at h
  rcases List.mem_map.mp h with ⟨pl, hpl, hk⟩
  rcases mem_sideInsert s p v pl hpl with h1 | h1
  · left
    rw [← hk, h1]
  · right
    unfold sideKeys
    rw [← hk]
    exact List.mem_map_of_mem _ h1

lemma sideInsert_sorted (s : SideMap) (p : Price) (v : Level)
    (hs : sideSorted s) : sideSorted (sideInsert p v s) := by
  induction s with
  | nil =>
    rw [sideInsert_nil]
    unfold sideSorted sideKeys
    simp
  | cons qw rest ih =>
    obtain ⟨q, w⟩ := qw
    obtain ⟨hlt, hrest⟩ := sideSorted_cons q w rest hs
    rw [sideInsert_cons]
    by_cases h1 : p < q
    · rw [if_pos h1]
      unfold sideSorted sideKeys
      rw [List.map_cons, List.pairwise_cons]
      constructor
      · intro k hk
        rcases List.mem_cons.mp hk with h2 | h2
        · rw [h2]
          exact h1
        · exact lt_trans h1 (hlt k h2)
      · exact hs
    · rw [if_neg h1]
      by_cases h2 : p = q
      · rw [if_pos h2]
        unfold sideSorted sideKeys
        rw [List.map_cons, List.pairwise_cons]
        subst h2
        exact ⟨hlt, hrest⟩
      · rw [if_neg h2]
        have hqp : q < p := by
          rcases lt_trichotomy p q with h3 | h3 | h3
          · exact absurd h3 h1
          · exact absurd h3 h2
          · exact h3
        unfold sideSorted sideKeys
        rw [List.map_cons, List.pairwise_cons]
        constructor
        · intro k hk
          rcases sideKeys_sideInsert_subset rest p v k hk with h3 | h3
          · rw [h3]
            exact hqp
          · exact hlt k h3
        · exact ih hrest

lemma sideInsert_append_big (s : SideMap) (p : Price) (v : Level)
    (h : ∀ k ∈ sideKeys s, k < p) : sideInsert p v s = s ++ [(p, v)] := by
  induction s with
  | nil => rw [sideInsert_nil]; rfl
  | cons qw rest ih =>
    obtain ⟨q, w⟩ := qw
    have hq : q < p := h q (by unfold sideKeys; simp)
    have h1n : ¬ p < q := not_lt.2 (le_of_lt hq)
    have h2n : p ≠ q := by
      intro hc
      rw [hc] at hq
      exact lt_irrefl q hq
    rw [sideInsert_cons, if_neg h1n, if_neg h2n]
    rw [ih (fun k hk => h k (by unfold sideKeys at hk ⊢; simp at hk ⊢; exact Or.inr hk))]
    rfl

lemma sideInsert_cons_small (s : SideMap) (p : Price) (v : Level)
    (h : ∀ k ∈ sideKeys s, p < k) : sideInsert p v s = (p, v) :: s := by
  cases s with
  | nil => exact sideInsert_nil p v
  | cons qw rest =>
    obtain ⟨q, w⟩ := qw
    have hq : p < q := h q (by unfold sideKeys; simp)
    rw [sideInsert_cons, if_pos hq]

lemma sideRemove_not_mem (s : SideMap) (p : Price)
    (h : ∀ k ∈ sideKeys s, k ≠ p) : sideRemove p s = s := by
  unfold sideRemove
  apply List.filter_eq_self.2
  intro pl hpl
  have : pl.1 ≠ p := h pl.1 (by unfold sideKeys; exact List.mem_map_of_mem _ hpl)
  simpa using this

lemma sideOrderCount_append (s1 s2 : SideMap) :
    sideOrderCount (s1 ++ s2) = sideOrderCount s1 + sideOrderCount s2 := by
  unfold sideOrderCount
  rw [List.map_append, List.sum_append]

lemma sidePopLast_shape (s : SideMap) (pl : Price × Level) (s2 : SideMap)
    (h : sidePopLast s = some (pl, s2)) : s = s2 ++ [pl] := by
  unfold sidePopLast at h
  cases hg : s.getLast? with
  | none => rw [hg] at h; exact absurd h (by simp)
  | some pl2 =>
    rw [hg] at h
    simp at h
    obtain ⟨ys, hys⟩ := List.getLast?_eq_some_iff.mp hg
    obtain ⟨h1, h2⟩ := h
    rw [← h2, hys]
    simp
    rw [← h1]

lemma fillLoop_len_le : ∀ (fuel : Nat) (bids asks : List Order) (tr : List Trade),
    (fillLoop fuel bids asks tr).1.length + (fillLoop fuel bids asks tr).2.1.length ≤
      bids.length + asks.length := by
  intro fuel
  induction fuel with
  | zero => intro bids asks tr; exact le_refl _
  | succ fuel ih =>
    intro bids asks tr
    cases bids with
    | nil => cases asks <;> exact le_refl _
    | cons bid restB =>
      cases asks with
      | nil => exact le_refl _
      | cons ask restA =>
        simp only [fillLoop, fill_min_left, fill_min_right]
        refine le_trans (ih _ _ _) ?_
        split <;> split <;> simp only [List.length_cons] <;> omega

lemma fillLoop_len_lt (fuel : Nat) (bid ask : Order) (restB restA : List Order)
    (tr : List Trade) (hfuel : 1 ≤ fuel) :
    (fillLoop fuel (bid :: restB) (ask :: restA) tr).1.length +
      (fillLoop fuel (bid :: restB) (ask :: restA) tr).2.1.length <
      (bid :: restB).length + (ask :: restA).length := by
  cases fuel with
  | zero => exact absurd hfuel (by simp)
  | succ fuel =>
    simp only [fillLoop, fill_min_left, fill_min_right]
    refine lt_of_le_of_lt (fillLoop_len_le fuel _ _ _) ?_
    have hone : ({ bid with remaining_quantity := bid.remaining_quantity - min bid.remaining_quantity ask.remaining_quantity } : Order).is_filled = true ∨
        ({ ask with remaining_quantity := ask.remaining_quantity - min bid.remaining_quantity ask.remaining_quantity } : Order).is_filled = true := by
      unfold Order.is_filled
      rcases le_total bid.remaining_quantity ask.remaining_quantity with h | h
      · left
        simp [min_eq_left h]
      · right
        simp [min_eq_right h]
    rcases hone with h1 | h1
    · rw [if_pos h1]
      split <;> simp only [List.length_cons] <;> omega
    · rw [if_pos h1]
      split <;> simp only [List.length_cons] <;> omega

lemma crossP_nil_right (bid : SideMap) : crossP bid [] := by
  intro p hp q hq
  exact absurd hq (by unfold sideKeys; simp)

lemma crossP_nil_left (ask : SideMap) : crossP [] ask := by
  intro p hp q hq
  exact absurd hp (by unfold sideKeys; simp)

lemma sideSorted_append_last (s2 : SideMap) (p : Price) (lvl : Level)
    (h : sideSorted (s2 ++ [(p, lvl)])) :
    sideSorted s2 ∧ ∀ k ∈ sideKeys s2, k < p := by
  unfold sideSorted at h ⊢
  rw [show sideKeys (s2 ++ [(p, lvl)]) = sideKeys s2 ++ [p] by
    rw [sideKeys_append]; rfl] at h
  rw [List.pairwise_append] at h
  obtain ⟨h1, _, h3⟩ := h
  exact ⟨h1, fun k hk => h3 k hk p (by simp)⟩

lemma sideSorted_append_last_intro (s2 : SideMap) (p : Price) (lvl : Level)
    (h1 : sideSorted s2) (h2 : ∀ k ∈ sideKeys s2, k < p) :
    sideSorted (s2 ++ [(p, lvl)]) := by
  unfold sideSorted
  rw [show sideKeys (s2 ++ [(p, lvl)]) = sideKeys s2 ++ [p] by
    rw [sideKeys_append]; rfl]
  rw [List.pairwise_append]
  refine ⟨h1, by simp, ?_⟩
  intro a ha b hb
  rw [List.mem_singleton.mp hb]
  exact h2 a ha

lemma sideSorted_cons_intro (q : Price) (w : Level) (rest : SideMap)
    (h1 : ∀ k ∈ sideKeys rest, q < k) (h2 : sideSorted rest) :
    sideSorted ((q, w) :: rest) := by
  unfold sideSorted
  rw [show sideKeys ((q, w) :: rest) = q :: sideKeys rest from rfl]
  exact List.pairwise_cons.mpr ⟨h1, h2⟩

lemma sideOrderCount_single (p : Price) (lvl : Level) :
    sideOrderCount [(p, lvl)] = lvl.length := by
  unfold sideOrderCount
  simp

lemma sideOrderCount_cons (p : Price) (lvl : Level) (rest : SideMap) :
    sideOrderCount ((p, lvl) :: rest) = lvl.length + sideOrderCount rest := by
  unfold sideOrderCount
  simp

lemma matchLoop_wf_cross : ∀ (fuel : Nat) (bid ask : SideMap) (tr : List Trade),
    sideWF bid → sideWF ask →
    sideOrderCount bid + sideOrderCount ask + bid.length + ask.length < fuel →
    sideWF (matchLoop fuel bid ask tr).1 ∧
    sideWF (matchLoop fuel bid ask tr).2.1 ∧
    crossP (matchLoop fuel bid ask tr).1 (matchLoop fuel bid ask tr).2.1 := by
  intro fuel
  induction fuel with
  | zero =>
    intro bid ask tr hwb hwa hm
    exact absurd hm (by simp)
  | succ fuel ih =>
    intro bid ask tr hwb hwa hm
    by_cases hemp : (ask.isEmpty || bid.isEmpty) = true
    · rw [matchLoop_stop _ _ _ _ hemp]
      refine ⟨hwb, hwa, ?_⟩
      have hor : ask.isEmpty = true ∨ bid.isEmpty = true := by
        rcases Bool.or_eq_true_iff.mp hemp with h | h
        · exact Or.inl h
        · exact Or.inr h
      rcases hor with h | h
      · rw [List.isEmpty_iff.mp h]
        exact crossP_nil_right bid
      · rw [List.isEmpty_iff.mp h]
        exact crossP_nil_left ask
    · have hbne : bid ≠ [] := by
        intro hc
        apply hemp
        rw [hc]
        simp
      have hane : ask ≠ [] := by
        intro hc
        apply hemp
        rw [hc]
        simp
      unfold matchLoop
      rw [if_neg hemp]
      cases hpl : sidePopLast bid with
      | none =>
        exfalso
        unfold sidePopLast at hpl
        cases hg : bid.getLast? with
        | none => exact hbne (List.getLast?_eq_none_iff.mp hg)
        | some pl2 => rw [hg] at hpl; exact absurd hpl (by simp)
      | some pr =>
        obtain ⟨⟨bbp, bids⟩, bid2⟩ := pr
        cases hpf : sidePopFirst ask with
        | none =>
          exfalso
          unfold sidePopFirst at hpf
          cases ask with
          | nil => exact hane rfl
          | cons x rest => exact absurd hpf (by simp)
        | some pr2 =>
          obtain ⟨⟨bap, asks⟩, ask2⟩ := pr2
          dsimp only
          have hbid_shape : bid = bid2 ++ [(bbp, bids)] := sidePopLast_shape _ _ _ hpl
          have hask_shape : ask = (bap, asks) :: ask2 := by
            unfold sidePopFirst at hpf
            cases ask with
            | nil => exact absurd hpf (by simp)
            | cons x rest =>
              simp at hpf
              rw [hpf.1, hpf.2]
          obtain ⟨hsortb, hnemb⟩ := hwb
          rw [hbid_shape] at hsortb hnemb
          obtain ⟨hsort2, hklt⟩ := sideSorted_append_last bid2 bbp bids hsortb
          have hnem2 : noEmptyLevels bid2 :=
            fun pl hpl2 => hnemb pl (List.mem_append_left _ hpl2)
          have hbidsne : bids ≠ [] :=
            hnemb (bbp, bids) (List.mem_append_right _ (by simp))
          obtain ⟨hsorta, hnema⟩ := hwa
          rw [hask_shape] at hsorta hnema
          obtain ⟨hagt, hsorta2⟩ := sideSorted_cons bap asks ask2 hsorta
          have hnema2 : noEmptyLevels ask2 :=
            fun pl hpl2 => hnema pl (List.mem_cons_of_mem _ hpl2)
          have hasksne : asks ≠ [] := hnema (bap, asks) (List.mem_cons_self _ _)
          by_cases hlt : bbp < bap
          · rw [if_pos hlt]
            refine ⟨⟨hsort2, hnem2⟩, ⟨hsorta2, hnema2⟩, ?_⟩
            intro p hp q hq
            exact lt_trans (lt_trans (hklt p hp) hlt) (hagt q hq)
          · rw [if_neg hlt]
            rw [fillLoop_err_none]
            dsimp only
            have hcb : sideOrderCount bid = sideOrderCount bid2 + bids.length := by
              rw [hbid_shape, sideOrderCount_append, sideOrderCount_single]
            have hlb : bid.length = bid2.length + 1 := by
              rw [hbid_shape]
              simp
            have hca : sideOrderCount ask = asks.length + sideOrderCount ask2 := by
              rw [hask_shape, sideOrderCount_cons]
            have hla : ask.length = ask2.length + 1 := by
              rw [hask_shape]
              simp
            obtain ⟨b0, bs, hbs⟩ : ∃ b0 bs, bids = b0 :: bs := by
              cases bids with
              | nil => exact absurd rfl hbidsne
              | cons b0 bs => exact ⟨b0, bs, rfl⟩
            obtain ⟨a0, asx, has⟩ : ∃ a0 asx, asks = a0 :: asx := by
              cases asks with
              | nil => exact absurd rfl hasksne
              | cons a0 asx => exact ⟨a0, asx, rfl⟩
            have hflt : (fillLoop (bids.length + asks.length) bids asks tr).1.length +
                (fillLoop (bids.length + asks.length) bids asks tr).2.1.length <
                bids.length + asks.length := by
              rw [hbs, has]
              exact fillLoop_len_lt _ b0 a0 bs asx tr (by simp only [List.length_cons]; omega)
            have hbid3 : sideWF (if (fillLoop (bids.length + asks.length) bids asks tr).1.isEmpty = true
                  then sideRemove bbp bid2
                  else sideInsert bbp (fillLoop (bids.length + asks.length) bids asks tr).1 bid2) ∧
                (if (fillLoop (bids.length + asks.length) bids asks tr).1.isEmpty = true
                  then sideRemove bbp bid2
                  else sideInsert bbp (fillLoop (bids.length + asks.length) bids asks tr).1 bid2).length ≤ bid2.length + 1 ∧
                sideOrderCount (if (fillLoop (bids.length + asks.length) bids asks tr).1.isEmpty = true
                  then sideRemove bbp bid2
                  else sideInsert bbp (fillLoop (bids.length + asks.length) bids asks tr).1 bid2) ≤
                  sideOrderCount bid2 + (fillLoop (bids.length + asks.length) bids asks tr).1.length := by
              by_cases hre : (fillLoop (bids.length + asks.length) bids asks tr).1.isEmpty = true
              · rw [if_pos hre, sideRemove_not_mem bid2 bbp
                  (fun k hk => ne_of_lt (hklt k hk))]
                exact ⟨⟨hsort2, hnem2⟩, by omega, by omega⟩
              · rw [if_neg hre, sideInsert_append_big bid2 bbp _ hklt]
                have hr1ne : (fillLoop (bids.length + asks.length) bids asks tr).1 ≠ [] := by
                  intro hc
                  rw [hc] at hre
                  exact hre rfl
                refine ⟨⟨sideSorted_append_last_intro bid2 bbp _ hsort2 hklt, ?_⟩, ?_, ?_⟩
                · intro pl hpl2
                  rcases List.mem_append.mp hpl2 with h1 | h1
                  · exact hnem2 pl h1
                  · rw [List.mem_singleton.mp h1]
                    exact hr1ne
                · simp
                · rw [sideOrderCount_append, sideOrderCount_single]
            have hask3 : sideWF (if (fillLoop (bids.length + asks.length) bids asks tr).2.1.isEmpty = true
                  then sideRemove bap ask2
                  else sideInsert bap (fillLoop (bids.length + asks.length) bids asks tr).2.1 ask2) ∧
                (if (fillLoop (bids.length + asks.length) bids asks tr).2.1.isEmpty = true
                  then sideRemove bap ask2
                  else sideInsert bap (fillLoop (bids.length + asks.length) bids asks tr).2.1 ask2).length ≤ ask2.length + 1 ∧
                sideOrderCount (if (fillLoop (bids.length + asks.length) bids asks tr).2.1.isEmpty = true
                  then sideRemove bap ask2
                  else sideInsert bap (fillLoop (bids.length + asks.length) bids asks tr).2.1 ask2) ≤
                  sideOrderCount ask2 + (fillLoop (bids.length + asks.length) bids asks tr).2.1.length := by
              by_cases hre : (fillLoop (bids.length + asks.length) bids asks tr).2.1.isEmpty = true
              · rw [if_pos hre, sideRemove_not_mem ask2 bap
                  (fun k hk => Ne.symm (ne_of_lt (hagt k hk)))]
                exact ⟨⟨hsorta2, hnema2⟩, by omega, by omega⟩
              · rw [if_neg hre, sideInsert_cons_small ask2 bap _ hagt]
                have hr2ne : (fillLoop (bids.length + asks.length) bids asks tr).2.1 ≠ [] := by
                  intro hc
                  rw [hc] at hre
                  exact hre rfl
                refine ⟨⟨sideSorted_cons_intro bap _ ask2 hagt hsorta2, ?_⟩, ?_, ?_⟩
                · intro pl hpl2
                  rcases List.mem_cons.mp hpl2 with h1 | h1
                  · rw [h1]
                    exact hr2ne
                  · exact hnema2 pl h1
                · simp
                · rw [sideOrderCount_cons]
                  omega
            exact ih _ _ _ hbid3.1 hask3.1 (by
              have h1 := hbid3.2.1
              have h2 := hbid3.2.2
              have h3 := hask3.2.1
              have h4 := hask3.2.2
              omega)

lemma side_update_facts (S : SideMap) (p : Price) (lvl2 : Level)
    (hwf : sideWF S) (hkey : p ∈ sideKeys S) :
    sideWF (if lvl2.isEmpty = true then sideRemove p S else sideInsert p lvl2 S) ∧
    ∀ k ∈ sideKeys (if lvl2.isEmpty = true then sideRemove p S else sideInsert p lvl2 S),
      k ∈ sideKeys S := by
  by_cases hre : lvl2.isEmpty = true
  · rw [if_pos hre]
    have hsub : (sideKeys (sideRemove p S)).Sublist (sideKeys S) := by
      unfold sideRemove sideKeys
      exact (List.filter_sublist S).map Prod.fst
    refine ⟨⟨List.Pairwise.sublist hsub hwf.1, ?_⟩, ?_⟩
    · intro pl hpl
      exact hwf.2 pl (List.mem_of_mem_filter hpl)
    · intro k hk
      exact hsub.subset hk
  · rw [if_neg hre]
    have hne : lvl2 ≠ [] := by
      intro hc
      rw [hc] at hre
      exact hre rfl
    refine ⟨⟨sideInsert_sorted S p lvl2 hwf.1, ?_⟩, ?_⟩
    · intro pl hpl
      rcases mem_sideInsert S p lvl2 pl hpl with h1 | h1
      · rw [h1]
        exact hne
      · exact hwf.2 pl h1
    · intro k hk
      rcases sideKeys_sideInsert_subset S p lvl2 k hk with h1 | h1
      · rw [h1]
        exact hkey
      · exact h1

lemma cancel_preserves (b : OrderBook) (id : OrderId)
    (hwf : bookWF b) (hcr : crossP b.bid_side b.ask_side) :
    bookWF (cancel_order b id).1 ∧
    crossP (cancel_order b id).1.bid_side (cancel_order b id).1.ask_side := by
  cases hg : trackGet b.track_orders id with
  | none =>
    rw [cancel_order_none b id hg]
    exact ⟨hwf, hcr⟩
  | some entry =>
    cases hs : sideGet (b.getSide entry.book_side) entry.price with
    | none =>
      rw [cancel_order_no_level b id entry hg hs]
      exact ⟨hwf, hcr⟩
    | some lvl =>
      rw [cancel_order_found b id entry lvl hg hs]
      have hmemp : (entry.price, lvl) ∈ b.getSide entry.book_side := sideGet_some_mem _ _ _ hs
      have hkeymem : entry.price ∈ sideKeys (b.getSide entry.book_side) := by
        unfold sideKeys
        exact List.mem_map_of_mem _ hmemp
      cases hbs : entry.book_side with
      | Buy =>
        rw [hbs] at hkeymem
        simp only [OrderBook.setSide]
        have hfacts := side_update_facts (b.getSide Side.Buy) entry.price
          (levelRemove lvl entry.order_id) hwf.1 hkeymem
        refine ⟨⟨?_, ?_⟩, ?_⟩
        · exact hfacts.1
        · exact hwf.2
        · intro p hp q hq
          exact hcr p (hfacts.2 p hp) q hq
      | Sell =>
        rw [hbs] at hkeymem
        simp only [OrderBook.setSide]
        have hfacts := side_update_facts (b.getSide Side.Sell) entry.price
          (levelRemove lvl entry.order_id) hwf.2 hkeymem
        refine ⟨⟨?_, ?_⟩, ?_⟩
        · exact hwf.1
        · exact hfacts.1
        · intro p hp q hq
          exact hcr p hp q (hfacts.2 q hq)

lemma prune_preserves (b : OrderBook) (s : Side)
    (hwf : bookWF b) (hcr : crossP b.bid_side b.ask_side) :
    bookWF (prune_fak_from_order_book b s) ∧
    crossP (prune_fak_from_order_book b s).bid_side
      (prune_fak_from_order_book b s).ask_side := by
  unfold prune_fak_from_order_book
  cases s with
  | Buy =>
    dsimp only
    cases hh : b.bid_side.head? with
    | none => exact ⟨hwf, hcr⟩
    | some pl =>
      dsimp only
      cases hlast : pl.2.getLast? with
      | none => exact ⟨hwf, hcr⟩
      | some o =>
        dsimp only
        cases hot : o.order_type with
        | FillAndKill => exact cancel_preserves b o.order_id hwf hcr
        | GoodTillCancel => exact ⟨hwf, hcr⟩
  | Sell =>
    dsimp only
    cases hh : b.ask_side.getLast? with
    | none => exact ⟨hwf, hcr⟩
    | some pl =>
      dsimp only
      cases hlast : pl.2.getLast? with
      | none => exact ⟨hwf, hcr⟩
      | some o =>
        dsimp only
        cases hot : o.order_type with
        | FillAndKill => exact cancel_preserves b o.order_id hwf hcr
        | GoodTillCancel => exact ⟨hwf, hcr⟩

lemma prune_if_preserves (x : OrderBook) (s : Side) (c : Bool)
    (hwf : bookWF x) (hcr : crossP x.bid_side x.ask_side) :
    bookWF (if c = true then x else prune_fak_from_order_book x s) ∧
    crossP (if c = true then x else prune_fak_from_order_book x s).bid_side
      (if c = true then x else prune_fak_from_order_book x s).ask_side := by
  by_cases hc : c = true
  · rw [if_pos hc]
    exact ⟨hwf, hcr⟩
  · rw [if_neg hc]
    exact prune_preserves x s hwf hcr

lemma match_orders_wf_cross (b : OrderBook) (hwf : bookWF b) :
    bookWF (match_orders b).1 ∧
    crossP (match_orders b).1.bid_side (match_orders b).1.ask_side := by
  unfold match_orders
  dsimp only
  rw [matchLoop_err_none]
  dsimp only
  have hml := matchLoop_wf_cross
    (sideOrderCount b.bid_side + sideOrderCount b.ask_side +
      b.bid_side.length + b.ask_side.length + 1)
    b.bid_side b.ask_side [] hwf.1 hwf.2 (Nat.lt_succ_self _)
  apply prune_if_preserves
  · exact (prune_if_preserves _ Side.Buy _ ⟨hml.1, hml.2.1⟩ hml.2.2).1
  · exact (prune_if_preserves _ Side.Buy _ ⟨hml.1, hml.2.1⟩ hml.2.2).2

lemma sideWF_getSide (b : OrderBook) (s : Side) (hwf : bookWF b) :
    sideWF (b.getSide s) := by
  cases s
  · exact hwf.1
  · exact hwf.2

lemma bookWF_setSide (b : OrderBook) (s : Side) (m : SideMap)
    (hwf : bookWF b) (hm : sideWF m) : bookWF (b.setSide s m) := by
  cases s
  · exact ⟨hm, hwf.2⟩
  · exact ⟨hwf.1, hm⟩

lemma levelInsert_ne_nil (lvl : Level) (o : Order) : levelInsert lvl o ≠ [] := by
  unfold levelInsert
  by_cases h : lvl.any (fun x => x.order_id == o.order_id) = true
  · rw [if_pos h]
    intro hc
    rw [List.map_eq_nil_iff] at hc
    rw [hc] at h
    simp at h
  · rw [if_neg h]
    simp

lemma add_order_preserves (b : OrderBook) (o : Order)
    (hwf : bookWF b) (hcr : crossP b.bid_side b.ask_side) :
    bookWF (add_order b o).1 ∧
    crossP (add_order b o).1.bid_side (add_order b o).1.ask_side := by
  by_cases h1 : trackContains b.track_orders o.order_id = true
  · rw [add_order_dup b o h1]
    exact ⟨hwf, hcr⟩
  · have h1f : trackContains b.track_orders o.order_id = false := by simpa using h1
    by_cases h2 : (o.order_type == OrderType.FillAndKill &&
        !(can_match b o.side o.price)) = true
    · have h3 : o.order_type = OrderType.FillAndKill ∧
          can_match b o.side o.price = false := by simpa using h2
      rw [add_order_fak_reject b o h1f h3.1 h3.2]
      exact ⟨hwf, hcr⟩
    · have h2f : (o.order_type == OrderType.FillAndKill &&
          !(can_match b o.side o.price)) = false := by simpa using h2
      rw [add_order_insert b o h1f h2f]
      apply (match_orders_wf_cross _ ?_).imp id id
      apply bookWF_setSide
      · exact hwf
      · cases hsg : sideGet (b.getSide o.side) o.price with
        | some lvl =>
          refine ⟨sideInsert_sorted _ _ _ (sideWF_getSide b o.side hwf).1, ?_⟩
          intro pl hpl
          rcases mem_sideInsert _ _ _ pl hpl with hh | hh
          · rw [hh]
            exact levelInsert_ne_nil lvl o
          · exact (sideWF_getSide b o.side hwf).2 pl hh
        | none =>
          refine ⟨sideInsert_sorted _ _ _ (sideWF_getSide b o.side hwf).1, ?_⟩
          intro pl hpl
          rcases mem_sideInsert _ _ _ pl hpl with hh | hh
          · rw [hh]
            simp
          · exact (sideWF_getSide b o.side hwf).2 pl hh

lemma modify_order_preserves (b : OrderBook) (m : OrderModify)
    (hwf : bookWF b) (hcr : crossP b.bid_side b.ask_side) :
    bookWF (modify_order b m).1 ∧
    crossP (modify_order b m).1.bid_side (modify_order b m).1.ask_side := by
  unfold modify_order
  cases hg : get_order_ref b m.order_id with
  | error e => exact ⟨hwf, hcr⟩
  | ok old_order =>
    dsimp only
    cases hcp : cancel_order b m.order_id with
    | mk b1 rc =>
      have hc := cancel_preserves b m.order_id hwf hcr
      rw [hcp] at hc
      cases rc with
      | error e => exact hc
      | ok v =>
        dsimp only
        cases hto : m.to_order old_order with
        | error e => exact hc
        | ok new_order => exact add_order_preserves b1 new_order hc.1 hc.2

/-- C5: after each public operation (`add_order`, `cancel_order`,
`modify_order`) returns, whenever both sides of the book are non-empty
the maximum bid-side price key is strictly below the minimum ask-side
price key — assuming the representation invariants (sorted sides, no
empty levels) and the separation held before the call. -/
theorem c5_cross_invariant (b : OrderBook) (o : Order) (id : OrderId) (m : OrderModify)
    (hwf : bookWF b) (hinv : crossOK b = true) :
    crossOK (add_order b o).1 = true ∧
    crossOK (cancel_order b id).1 = true ∧
    crossOK (modify_order b m).1 = true := by
  have hcr := crossP_of_crossOK b hinv
  exact ⟨crossOK_of_crossP _ (add_order_preserves b o hwf hcr).2,
    crossOK_of_crossP _ (cancel_preserves b id hwf hcr).2,
    crossOK_of_crossP _ (modify_order_preserves b m hwf hcr).2⟩

/-- Witness for C5 at a concrete input: a separated one-level book under
an add, a cancel, and a modify. -/
theorem c5_witness :
    crossOK (add_order c5book (gtcOrder 6 Side.Buy 94 1)).1 = true ∧
    crossOK (cancel_order c5book 4).1 = true ∧
    crossOK (modify_order c5book (OrderModify.mk 5 none none (some 3))).1 = true :=
  c5_cross_invariant c5book (gtcOrder 6 Side.Buy 94 1) 4 (OrderModify.mk 5 none none (some 3))
    ⟨⟨by unfold sideSorted sideKeys c5book; simp,
      by unfold noEmptyLevels c5book; decide⟩,
     ⟨by unfold sideSorted sideKeys c5book; simp,
      by unfold noEmptyLevels c5book; decide⟩⟩
    (by decide)
